import Mathlib

/-!
# Field-Comm: the Whisper pipeline around the TFLite model

A shallow embedding of `src/app/cpp/TFLiteEngine.cpp`:

* `TFLiteEngine.loadModel`       (lines 27-167)
* `TFLiteEngine.transcribeBuffer` (lines 169-397)
* `TFLiteEngine.transcribeFile`   (lines 399-425)

Conventions of the embedding.

* A `std::string` is the list of its bytes (`List UInt8`); a `float` is its raw
  32-bit word (`UInt32`), the word `0` being `0.0f`.  No floating point
  arithmetic happens in the embedded code: floats are only copied.
* An `int` is an `Int`; values read from the blob are decoded as little-endian
  two's complement 32-bit integers.
* `std::map<int, std::string>` is a key-ordered association list with
  `find` and `assign` (`m[k] = v`).
* The pointer `vocabData` walking over the embedded array is the list of the
  bytes that are still ahead of it.
* A call that does not return normally (a read past the end of the embedded
  array, a signed overflow in `n_mel * n_fft`, an exception thrown by
  `resize`/`std::string`, `exit(1)` from `TFLITE_MINIMAL_CHECK`) is `none`.
* Logging to `std::cout` / `std::cerr` and timing are left out.
-/

/-! ## Strings and floats -/

/-- Bytes of a `std::string`. -/
abbrev ByteString := List UInt8

/-- Raw 32-bit word of a C++ `float`. -/
abbrev Float32 := UInt32

/-- Bytes of an ASCII string literal of the source. -/
def cstr (s : String) : ByteString :=
  s.toList.map (fun c => UInt8.ofNat c.toNat)

/-- Decimal text of an `int`, as `std::to_string` prints it. -/
def std_to_string (n : Int) : ByteString :=
  cstr (toString n)

/-- Result of `std::vector::resize(n, fill)`: truncate or pad on the right. -/
def resize {α : Type} (v : List α) (n : Nat) (fill : α) : List α :=
  v.take n ++ List.replicate (n - v.length) fill

/-! ## `std::map<int, std::string>` -/

/-- Key-ordered association list standing for `std::map<int, std::string>`. -/
abbrev TokenMap := List (Int × ByteString)

/-- Lookup `m.find(k)`: `none` stands for `m.end()`. -/
def TokenMap.find : TokenMap → Int → Option ByteString
  | [], _ => none
  | (k', v) :: m, k => if k' = k then some v else TokenMap.find m k

/-- Assignment `m[k] = v`: overwrite the entry of `k` or insert it in key order. -/
def TokenMap.assign : TokenMap → Int → ByteString → TokenMap
  | [], k, v => [(k, v)]
  | (k', v') :: m, k, v =>
    if k' < k then (k', v') :: TokenMap.assign m k v
    else if k' = k then (k, v) :: m
    else (k, v) :: (k', v') :: m

/-! ## Data model (`whisper.h`, `TFLiteEngine.h`) -/

/-- Mel filter bank `whisper_filters`: `n_mel`, `n_fft` and the weights. -/
structure whisper_filters where
  n_mel : Int
  n_fft : Int
  data : List Float32
deriving DecidableEq

/-- Vocabulary `whisper_vocab`: the token table and the six special ids. -/
structure whisper_vocab where
  id_to_token : TokenMap
  token_eot : Int
  token_sot : Int
  token_prev : Int
  token_solm : Int
  token_not : Int
  token_beg : Int
deriving DecidableEq

/-- Modelled from the spec: the initial value of `whisper_vocab` declared in
`whisper.h`, which is not among the sources. The table is empty and the special
ids are the English-only base constants of spec section 4.1. -/
def whisper_vocab.initial : whisper_vocab where
  id_to_token := []
  token_eot := 50256
  token_sot := 50257
  token_prev := 50360
  token_solm := 50361
  token_not := 50362
  token_beg := 50363

/-- Instance state read and written by `loadModel`: the members `filters` and
`g_vocab`, and of `g_whisper_tflite` the flag and the model buffer. -/
structure TFLiteEngine where
  is_whisper_tflite_initialized : Bool
  buffer : Option (List UInt8)
  filters : whisper_filters
  g_vocab : whisper_vocab
deriving DecidableEq

/-- Collaborators outside `TFLiteEngine.cpp`: the two embedded blobs
(`filters_vocab_en.h`, `filters_vocab_multilingual.h`), the file system, the
TFLite runtime, the feature extractor and the constants of `whisper.h`. -/
structure Env where
  /-- Embedded array `filters_vocab_en`. -/
  filters_vocab_en : List UInt8
  /-- Embedded array `filters_vocab_multilingual`. -/
  filters_vocab_multilingual : List UInt8
  /-- Opening and reading the model file: `none` when `is_open()` is false,
  else the bytes handed to `BuildFromBuffer`. -/
  openModel : String → Option (List UInt8)
  /-- Whether the three `TFLITE_MINIMAL_CHECK`s pass on this model buffer. -/
  tfliteOk : List UInt8 → Bool
  /-- Constant `WHISPER_SAMPLE_RATE`. -/
  WHISPER_SAMPLE_RATE : Nat
  /-- Constant `WHISPER_CHUNK_SIZE` (seconds). -/
  WHISPER_CHUNK_SIZE : Nat
  /-- Feature extractor `log_mel_spectrogram`: `none` when it returns false. -/
  log_mel_spectrogram : List Float32 → whisper_filters → Option (List Float32)
  /-- Inference `interpreter->Invoke()` on the copied features: `none` when the
  status is not `kTfLiteOk`, else the `output_size` ints of the output tensor. -/
  Invoke : List Float32 → Option (List Int)

/-! ## Reading the blob (`loadModel`, lines 44-84) -/

/-- Value of an `int` whose four bytes in memory are `b0 b1 b2 b3`. -/
def int32OfBytes (b0 b1 b2 b3 : UInt8) : Int :=
  let u : Nat := b0.toNat + 256 * b1.toNat + 65536 * b2.toNat + 16777216 * b3.toNat
  if u < 2147483648 then (u : Int) else (u : Int) - 4294967296

/-- Step `memcpy(&x, vocabData, 4); vocabData += 4` for an `int x`. -/
def readInt32 : List UInt8 → Option (Int × List UInt8)
  | b0 :: b1 :: b2 :: b3 :: rest => some (int32OfBytes b0 b1 b2 b3, rest)
  | _ => none

/-- Word of a `float` whose four bytes in memory are `b0 b1 b2 b3`. -/
def float32OfBytes (b0 b1 b2 b3 : UInt8) : Float32 :=
  UInt32.ofNat (b0.toNat + 256 * b1.toNat + 65536 * b2.toNat + 16777216 * b3.toNat)

/-- Copy of `n` floats out of the blob (lines 65-66). -/
def readFloats : Nat → List UInt8 → Option (List Float32 × List UInt8)
  | 0, p => some ([], p)
  | n + 1, b0 :: b1 :: b2 :: b3 :: rest =>
    match readFloats n rest with
    | some (ws, p) => some (float32OfBytes b0 b1 b2 b3 :: ws, p)
    | none => none
  | _ + 1, _ => none

/-- Construction `std::string word(vocabData, len); vocabData += len`. -/
def readString (len : Int) (p : List UInt8) : Option (ByteString × List UInt8) :=
  if 0 ≤ len ∧ len.toNat ≤ p.length then some (p.take len.toNat, p.drop len.toNat)
  else none

/-- Loop of lines 75-84: `count` more words are read, the next one gets id `i`. -/
def readVocab : Nat → Int → List UInt8 → TokenMap → Option (TokenMap × List UInt8)
  | 0, _, p, m => some (m, p)
  | count + 1, i, p, m =>
    match readInt32 p with
    | none => none
    | some (len, p1) =>
      match readString len p1 with
      | none => none
      | some (word, p2) => readVocab count (i + 1) p2 (TokenMap.assign m i word)

/-! ## Synthesised vocabulary (`loadModel`, lines 86-117) -/

/-- Word given to id `i` by the branch chain of lines 99-114, in the order of
the source: the test `i > token_beg` comes first. -/
def additionalWord (v : whisper_vocab) (i : Int) : ByteString :=
  if i > v.token_beg then cstr "[_TT_" ++ std_to_string (i - v.token_beg) ++ cstr "]"
  else if i = v.token_eot then cstr "[_EOT_]"
  else if i = v.token_sot then cstr "[_SOT_]"
  else if i = v.token_prev then cstr "[_PREV_]"
  else if i = v.token_not then cstr "[_NOT_]"
  else if i = v.token_beg then cstr "[_BEG_]"
  else cstr "[_extra_token_" ++ std_to_string i ++ cstr "]"

/-- Loop of lines 98-117: `count` more ids are filled, starting at `i`. -/
def addAdditional (v : whisper_vocab) : Nat → Int → TokenMap → TokenMap
  | 0, _, m => m
  | count + 1, i, m => addAdditional v count (i + 1) (TokenMap.assign m i (additionalWord v i))

/-- Lines 87-96: the six increments of the multilingual vocabulary. -/
def bumpSpecial (v : whisper_vocab) : whisper_vocab :=
  { v with
    token_eot := v.token_eot + 1
    token_sot := v.token_sot + 1
    token_prev := v.token_prev + 1
    token_solm := v.token_solm + 1
    token_not := v.token_not + 1
    token_beg := v.token_beg + 1 }

/-- Ceiling `n_vocab_additional` of lines 87-89. -/
def n_vocab_additional (isMultilingual : Bool) : Int :=
  if isMultilingual then 51865 else 51864

/-! ## `TFLiteEngine::loadModel` -/

/-- Lines 38-42: the embedded array selected by `isMultilingual`. -/
def Env.vocabData (env : Env) (isMultilingual : Bool) : List UInt8 :=
  if isMultilingual then env.filters_vocab_multilingual else env.filters_vocab_en

/-- Lines 55-66 of `loadModel`: `n_mel`, `n_fft` and the `n_mel * n_fft` weights.
The product is an `int` converted to `size_t` by `resize`: outside
`[0, 2^31)` the call does not return normally. -/
def readFilters (p : List UInt8) : Option (whisper_filters × List UInt8) :=
  match readInt32 p with
  | none => none
  | some (n_mel, p2) =>
    match readInt32 p2 with
    | none => none
    | some (n_fft, p3) =>
      if 0 ≤ n_mel * n_fft ∧ n_mel * n_fft < 2147483648 then
        match readFloats (n_mel * n_fft).toNat p3 with
        | none => none
        | some (data, p4) => some ({ n_mel := n_mel, n_fft := n_fft, data := data }, p4)
      else none

/-- Lines 55-117 of `loadModel`: after the magic check, fill `filters` and
`g_vocab` from the bytes `p` that follow the magic value. -/
def TFLiteEngine.loadFiltersVocab (p : List UInt8) (isMultilingual : Bool)
    (s : TFLiteEngine) : Option TFLiteEngine :=
  match readFilters p with
  | none => none
  | some (filters, p4) =>
    match readInt32 p4 with
    | none => none
    | some (n_vocab, p5) =>
      match readVocab n_vocab.toNat 0 p5 s.g_vocab.id_to_token with
      | none => none
      | some (m, _) =>
        let v := if isMultilingual then bumpSpecial s.g_vocab else s.g_vocab
        let count := (n_vocab_additional isMultilingual - n_vocab).toNat
        some { s with
          filters := filters
          g_vocab := { v with id_to_token := addAdditional v count n_vocab m } }

/-- Method `TFLiteEngine::loadModel(modelPath, isMultilingual)`: the returned
`int` and the state after the call, or `none` when the call does not return. -/
def TFLiteEngine.loadModel (env : Env) (modelPath : String) (isMultilingual : Bool)
    (s : TFLiteEngine) : Option (Int × TFLiteEngine) :=
  if s.is_whisper_tflite_initialized then some (0, s)
  else
    match readInt32 (env.vocabData isMultilingual) with
    | none => none
    | some (magic, p) =>
      if magic ≠ 0x57535052 then some (-1, s)
      else
        match TFLiteEngine.loadFiltersVocab p isMultilingual s with
        | none => none
        | some s1 =>
          match env.openModel modelPath with
          | none => some (-1, s1)
          | some buffer =>
            if env.tfliteOk buffer then
              some (0, { s1 with buffer := some buffer, is_whisper_tflite_initialized := true })
            else none

/-! ## `TFLiteEngine::transcribeBuffer` -/

/-- Decode loop of lines 331-374 over the output tokens still to be read,
`text` being the string accumulated so far. -/
def decodeTokens (v : whisper_vocab) : List Int → ByteString → ByteString
  | [], text => text
  | token_id :: rest, text =>
    if token_id = v.token_eot then text
    else if token_id < v.token_eot then
      match v.id_to_token.find token_id with
      | some token_str => decodeTokens v rest (text ++ token_str)
      | none => decodeTokens v rest text
    else decodeTokens v rest text

/-- Method `TFLiteEngine::transcribeBuffer(samples)`: the returned text. -/
def TFLiteEngine.transcribeBuffer (env : Env) (s : TFLiteEngine)
    (samples : List Float32) : ByteString :=
  let samples := resize samples (env.WHISPER_SAMPLE_RATE * env.WHISPER_CHUNK_SIZE) 0
  match env.log_mel_spectrogram samples s.filters with
  | none => []
  | some mel =>
    match env.Invoke mel with
    | none => []
    | some output_int => decodeTokens s.g_vocab output_int []

/-! ## `TFLiteEngine::transcribeFile` -/

/-- Wrap of an unsigned 64-bit `size_t` computation. -/
def size_t (n : Nat) : Nat := n % 18446744073709551616

/-- Chunk count `totalChunks` of lines 404-405 for `originalSize` samples. -/
def TFLiteEngine.totalChunks (env : Env) (originalSize : Nat) : Nat :=
  size_t (size_t (originalSize + env.WHISPER_SAMPLE_RATE * env.WHISPER_CHUNK_SIZE)
    + 18446744073709551615) / (env.WHISPER_SAMPLE_RATE * env.WHISPER_CHUNK_SIZE)

/-- Lines 410-418: the chunk passed to `transcribeBuffer` at `chunkIndex`. -/
def TFLiteEngine.chunk (env : Env) (pcmf32 : List Float32) (chunkIndex : Nat) :
    List Float32 :=
  let startSample :=
    size_t (size_t (chunkIndex * env.WHISPER_SAMPLE_RATE) * env.WHISPER_CHUNK_SIZE)
  let endSample :=
    min (size_t (startSample + env.WHISPER_SAMPLE_RATE * env.WHISPER_CHUNK_SIZE))
      pcmf32.length
  let chunk := (pcmf32.drop startSample).take (endSample - startSample)
  if chunk.length < env.WHISPER_SAMPLE_RATE * env.WHISPER_CHUNK_SIZE then
    resize chunk (env.WHISPER_SAMPLE_RATE * env.WHISPER_CHUNK_SIZE) 0
  else chunk

/-- Loop of lines 408-423 with `count` iterations left, at `chunkIndex`. -/
def TFLiteEngine.transcribeLoop (env : Env) (s : TFLiteEngine) (pcmf32 : List Float32) :
    Nat → Nat → ByteString → ByteString
  | 0, _, text => text
  | count + 1, chunkIndex, text =>
    let chunkText := TFLiteEngine.transcribeBuffer env s (TFLiteEngine.chunk env pcmf32 chunkIndex)
    TFLiteEngine.transcribeLoop env s pcmf32 count (chunkIndex + 1) (text ++ chunkText)

/-- Method `TFLiteEngine::transcribeFile`, from the samples `pcmf32` that
`readWAVFile` returned: the returned text. -/
def TFLiteEngine.transcribeFile (env : Env) (s : TFLiteEngine)
    (pcmf32 : List Float32) : ByteString :=
  TFLiteEngine.transcribeLoop env s pcmf32
    (TFLiteEngine.totalChunks env pcmf32.length) 0 []

/-! ## The spec's side of the comparisons -/

/-- Text the spec gives for a token sequence (section 4.4): the entries of
`id_to_token` of the tokens before the first `end_of_text` that are below
`end_of_text` and present in the table, concatenated in sequence order. -/
def decodeSpec (v : whisper_vocab) (xs : List Int) : ByteString :=
  ((xs.takeWhile (fun t => t ≠ v.token_eot)).filterMap
    (fun t => if t < v.token_eot then v.id_to_token.find t else none)).flatten

/-- Value `n_vocab` that `loadModel` reads from a blob (line 70). -/
def n_vocab_of (vocabData : List UInt8) : Option Int :=
  match readInt32 vocabData with
  | none => none
  | some (_, p) =>
    match readFilters p with
    | none => none
    | some (_, p4) => (readInt32 p4).map Prod.fst

/-- Rule list of spec section 4.1 for a synthesised id, in the order the spec
lists it, first matching rule wins. -/
def specTokenText (v : whisper_vocab) (i : Int) : ByteString :=
  if i = v.token_eot then cstr "[_EOT_]"
  else if i = v.token_sot then cstr "[_SOT_]"
  else if i = v.token_prev then cstr "[_PREV_]"
  else if i = v.token_not then cstr "[_NOT_]"
  else if i = v.token_beg then cstr "[_BEG_]"
  else if i > v.token_beg then cstr "[_TT_" ++ std_to_string (i - v.token_beg) ++ cstr "]"
  else cstr "[_extra_token_" ++ std_to_string i ++ cstr "]"

/-- Four bytes of a little-endian 32-bit field holding `n`. -/
def encodeInt32 (n : Nat) : List UInt8 :=
  [UInt8.ofNat (n % 256), UInt8.ofNat (n / 256 % 256), UInt8.ofNat (n / 65536 % 256),
    UInt8.ofNat (n / 16777216 % 256)]

/-- Four bytes of a float word, little-endian. -/
def encodeFloat (w : Float32) : List UInt8 :=
  encodeInt32 w.toNat

/-- Length-prefixed token string of the blob. -/
def encodeString (word : ByteString) : List UInt8 :=
  encodeInt32 word.length ++ word

/-- Blob layout of spec section 4.1: magic, `n_mel`, `n_fft`, the weights,
`n_vocab`, then each string as a 4-byte length followed by its bytes. -/
def encodeBlob (n_mel n_fft : Nat) (weights : List Float32) (words : List ByteString) :
    List UInt8 :=
  encodeInt32 0x57535052 ++ (encodeInt32 n_mel ++ (encodeInt32 n_fft ++
    ((weights.map encodeFloat).flatten ++ (encodeInt32 words.length ++
      (words.map encodeString).flatten))))

/-! ## A concrete environment -/

/-- Small well-formed blob: an empty filter bank and the single token string
`" hello"` (id 0). -/
def tinyBlob : List UInt8 :=
  encodeBlob 0 0 [] [cstr " hello"]

/-- Environment with the Whisper constants (16 kHz, 30 s chunks), in which only
the model file `whisper.tflite` exists, no chunk starting with the word `1`
passes feature extraction, and inference answers every chunk with the token `0`
followed by the English-only `end_of_text`. -/
def whisperEnv : Env where
  filters_vocab_en := tinyBlob
  filters_vocab_multilingual := tinyBlob
  openModel := fun path => if path = "whisper.tflite" then some [] else none
  tfliteOk := fun _ => true
  WHISPER_SAMPLE_RATE := 16000
  WHISPER_CHUNK_SIZE := 30
  log_mel_spectrogram := fun samples _ => if samples.head? = some 1 then none else some samples
  Invoke := fun _ => some [0, 50256]

/-- State before the first `loadModel`: nothing loaded, an empty filter bank,
the vocabulary at its initial value. -/
def TFLiteEngine.fresh : TFLiteEngine where
  is_whisper_tflite_initialized := false
  buffer := none
  filters := { n_mel := 0, n_fft := 0, data := [] }
  g_vocab := whisper_vocab.initial

/-- Input of 30 seconds and one sample: `480000` samples with the word `1`,
then one sample with the word `2`. -/
def twoChunkInput : List Float32 :=
  List.replicate (whisperEnv.WHISPER_SAMPLE_RATE * whisperEnv.WHISPER_CHUNK_SIZE) 1 ++ [2]

/-! # Lemmas -/

theorem decodeTokens_acc (v : whisper_vocab) (xs : List Int) (text : ByteString) :
    decodeTokens v xs text = text ++ decodeTokens v xs [] := by
  induction xs generalizing text with
  | nil => simp [decodeTokens]
  | cons t ts ih =>
    unfold decodeTokens
    by_cases h1 : t = v.token_eot
    · simp [h1]
    · by_cases h2 : t < v.token_eot
      · cases hf : v.id_to_token.find t with
        | none => simpa [h1, h2, hf] using ih text
        | some w =>
          simp only [h1, h2, hf, if_true, if_false]
          rw [ih (text ++ w), ih ([] ++ w)]
          simp
      · simpa [h1, h2] using ih text

theorem decodeTokens_eq_spec (v : whisper_vocab) (xs : List Int) :
    decodeTokens v xs [] = decodeSpec v xs := by
  induction xs with
  | nil => simp [decodeTokens, decodeSpec]
  | cons t ts ih =>
    unfold decodeTokens
    by_cases h1 : t = v.token_eot
    · simp [h1, decodeSpec]
    · by_cases h2 : t < v.token_eot
      · cases hf : v.id_to_token.find t with
        | none =>
          simp only [h1, h2, hf, if_true, if_false]
          rw [ih]
          simp [decodeSpec, List.takeWhile_cons, h1, h2, hf, List.filterMap_cons]
        | some w =>
          simp only [h1, h2, hf, if_true, if_false]
          rw [decodeTokens_acc, ih]
          simp [decodeSpec, List.takeWhile_cons, h1, h2, hf, List.filterMap_cons]
      · simp only [h1, h2, if_false]
        rw [ih]
        simp [decodeSpec, List.takeWhile_cons, h1, h2, List.filterMap_cons]

theorem decodeTokens_append_eot (v : whisper_vocab) (xs ys : List Int) (text : ByteString) :
    decodeTokens v (xs ++ v.token_eot :: ys) text = decodeTokens v xs text := by
  induction xs generalizing text with
  | nil => simp [decodeTokens]
  | cons t ts ih =>
    simp only [List.cons_append]
    unfold decodeTokens
    by_cases h1 : t = v.token_eot
    · simp [h1]
    · by_cases h2 : t < v.token_eot
      · cases hf : v.id_to_token.find t with
        | none => simpa [h1, h2, hf] using ih text
        | some w => simpa [h1, h2, hf] using ih (text ++ w)
      · simpa [h1, h2] using ih text

theorem size_t_of_lt {n : Nat} (h : n < 18446744073709551616) : size_t n = n := by
  unfold size_t
  exact Nat.mod_eq_of_lt h

theorem totalChunks_eq (env : Env) (total : Nat)
    (hL : 0 < env.WHISPER_SAMPLE_RATE * env.WHISPER_CHUNK_SIZE)
    (hI : env.WHISPER_SAMPLE_RATE * env.WHISPER_CHUNK_SIZE < 2147483648)
    (hT : total < 2305843009213693952) :
    TFLiteEngine.totalChunks env total =
      (total + env.WHISPER_SAMPLE_RATE * env.WHISPER_CHUNK_SIZE - 1) /
        (env.WHISPER_SAMPLE_RATE * env.WHISPER_CHUNK_SIZE) := by
  unfold TFLiteEngine.totalChunks
  generalize env.WHISPER_SAMPLE_RATE * env.WHISPER_CHUNK_SIZE = L at *
  rw [size_t_of_lt (by omega : total + L < 18446744073709551616)]
  have : size_t (total + L + 18446744073709551615) = total + L - 1 := by
    unfold size_t
    omega
  rw [this]

theorem ceilDiv_le_iff (total L n : Nat) (hL : 0 < L) :
    (total + L - 1) / L ≤ n ↔ total ≤ n * L := by
  rw [← Nat.lt_succ_iff, Nat.div_lt_iff_lt_mul hL, Nat.succ_mul]
  omega

theorem ceilDiv_eq_ceil (total L : Nat) (hL : 0 < L) :
    (total + L - 1) / L = Nat.ceil ((total : ℚ) / (L : ℚ)) := by
  have hLq : (0 : ℚ) < (L : ℚ) := by exact_mod_cast hL
  apply le_antisymm
  · rw [ceilDiv_le_iff _ _ _ hL]
    have h := Nat.le_ceil ((total : ℚ) / (L : ℚ))
    rw [div_le_iff₀ hLq] at h
    exact_mod_cast h
  · rw [Nat.ceil_le, div_le_iff₀ hLq]
    have h := (ceilDiv_le_iff total L _ hL).1 le_rfl
    exact_mod_cast h

theorem mul_lt_of_lt_ceilDiv (total L i : Nat) (hL : 0 < L)
    (hi : i < (total + L - 1) / L) : i * L < total := by
  by_contra h
  have := (ceilDiv_le_iff total L i hL).2 (by omega)
  omega

theorem chunk_eq (env : Env) (pcmf32 : List Float32) (i : Nat)
    (hL : 0 < env.WHISPER_SAMPLE_RATE * env.WHISPER_CHUNK_SIZE)
    (hI : env.WHISPER_SAMPLE_RATE * env.WHISPER_CHUNK_SIZE < 2147483648)
    (hT : pcmf32.length < 2305843009213693952)
    (hi : i < TFLiteEngine.totalChunks env pcmf32.length) :
    TFLiteEngine.chunk env pcmf32 i =
      (pcmf32.drop (i * (env.WHISPER_SAMPLE_RATE * env.WHISPER_CHUNK_SIZE))).take
          (env.WHISPER_SAMPLE_RATE * env.WHISPER_CHUNK_SIZE) ++
        List.replicate
          (env.WHISPER_SAMPLE_RATE * env.WHISPER_CHUNK_SIZE -
            min (env.WHISPER_SAMPLE_RATE * env.WHISPER_CHUNK_SIZE)
              (pcmf32.length - i * (env.WHISPER_SAMPLE_RATE * env.WHISPER_CHUNK_SIZE))) 0 := by
  rw [totalChunks_eq env _ hL hI hT] at hi
  have hlt := mul_lt_of_lt_ceilDiv _ _ _ hL hi
  have hC : 0 < env.WHISPER_CHUNK_SIZE := Nat.pos_of_ne_zero (by
    intro h; rw [h] at hL; simp at hL)
  have hiR : i * env.WHISPER_SAMPLE_RATE ≤
      i * (env.WHISPER_SAMPLE_RATE * env.WHISPER_CHUNK_SIZE) :=
    Nat.mul_le_mul_left i (Nat.le_mul_of_pos_right _ hC)
  have hs : size_t (size_t (i * env.WHISPER_SAMPLE_RATE) * env.WHISPER_CHUNK_SIZE) =
      i * (env.WHISPER_SAMPLE_RATE * env.WHISPER_CHUNK_SIZE) := by
    have h1 : size_t (i * env.WHISPER_SAMPLE_RATE) = i * env.WHISPER_SAMPLE_RATE :=
      size_t_of_lt (by omega)
    rw [h1, Nat.mul_assoc]
    exact size_t_of_lt (by omega)
  unfold TFLiteEngine.chunk
  simp only [hs]
  generalize env.WHISPER_SAMPLE_RATE * env.WHISPER_CHUNK_SIZE = L at *
  rw [size_t_of_lt (by omega : i * L + L < 18446744073709551616)]
  have hlen : ((pcmf32.drop (i * L)).take (min (i * L + L) pcmf32.length - i * L)).length =
      min L (pcmf32.length - i * L) := by
    simp only [List.length_take, List.length_drop]
    omega
  have htake : (pcmf32.drop (i * L)).take (min (i * L + L) pcmf32.length - i * L) =
      (pcmf32.drop (i * L)).take L := by
    by_cases h : i * L + L ≤ pcmf32.length
    · congr 1
      omega
    · rw [List.take_of_length_le (by simp only [List.length_drop]; omega),
        List.take_of_length_le (by simp only [List.length_drop]; omega)]
  by_cases hshort : ((pcmf32.drop (i * L)).take (min (i * L + L) pcmf32.length - i * L)).length < L
  · rw [if_pos hshort]
    unfold resize
    rw [hlen, htake, List.take_take, Nat.min_self]
  · rw [if_neg hshort, htake]
    rw [hlen] at hshort
    have : L - min L (pcmf32.length - i * L) = 0 := by omega
    rw [this]
    simp

theorem flatten_slices (L : Nat) (n : Nat) (l : List Float32)
    (h : l.length ≤ n * L) :
    ((List.range n).map (fun i => (l.drop (i * L)).take L)).flatten = l := by
  induction n generalizing l with
  | zero =>
    have : l = [] := List.eq_nil_of_length_eq_zero (by omega)
    simp [this]
  | succ n ih =>
    rw [List.range_succ_eq_map, List.map_cons, List.flatten_cons, List.map_map]
    have hrest : (List.range n).map ((fun i => (l.drop (i * L)).take L) ∘ Nat.succ) =
        (List.range n).map (fun i => ((l.drop L).drop (i * L)).take L) := by
      apply List.map_congr_left
      intro i _
      simp only [Function.comp, List.drop_drop]
      congr 2
      rw [Nat.succ_mul]
      omega
    rw [hrest, ih (l.drop L) (by rw [List.length_drop, Nat.succ_mul] at *; omega)]
    simp

theorem find_assign (m : TokenMap) (k : Int) (w : ByteString) (j : Int) :
    (TokenMap.assign m k w).find j = if j = k then some w else m.find j := by
  induction m with
  | nil =>
    by_cases h : j = k
    · simp [TokenMap.assign, TokenMap.find, h]
    · simp [TokenMap.assign, TokenMap.find, h, Ne.symm h]
  | cons e m ih =>
    obtain ⟨k', w'⟩ := e
    unfold TokenMap.assign
    by_cases h1 : k' < k
    · rw [if_pos h1]
      by_cases h2 : k' = j
      · have : j ≠ k := by omega
        simp [TokenMap.find, h2, this]
      · simp only [TokenMap.find, h2, if_false]
        exact ih
    · rw [if_neg h1]
      by_cases h3 : k' = k
      · rw [if_pos h3]
        by_cases h : j = k
        · simp [TokenMap.find, h]
        · have : k' ≠ j := by omega
          simp [TokenMap.find, h, Ne.symm h, this]
      · rw [if_neg h3]
        by_cases h : j = k
        · simp [TokenMap.find, h]
        · simp [TokenMap.find, h, Ne.symm h]

theorem addAdditional_find (v : whisper_vocab) (count : Nat) (i : Int) (m : TokenMap)
    (j : Int) :
    (addAdditional v count i m).find j =
      if i ≤ j ∧ j < i + count then some (additionalWord v j) else m.find j := by
  induction count generalizing i m with
  | zero =>
    have : ¬ (i ≤ j ∧ j < i + ((0 : Nat) : Int)) := by omega
    rw [if_neg this]
    rfl
  | succ n ih =>
    unfold addAdditional
    rw [ih, find_assign]
    by_cases h1 : j = i
    · subst h1
      have a : ¬ (j + 1 ≤ j ∧ j < j + 1 + (n : Int)) := by omega
      have b : j ≤ j ∧ j < j + ((n + 1 : Nat) : Int) := by omega
      rw [if_neg a, if_pos b, if_pos rfl]
    · by_cases h2 : i + 1 ≤ j ∧ j < i + 1 + (n : Int)
      · have b : i ≤ j ∧ j < i + ((n + 1 : Nat) : Int) := by omega
        rw [if_pos h2, if_pos b]
      · have b : ¬ (i ≤ j ∧ j < i + ((n + 1 : Nat) : Int)) := by omega
        rw [if_neg h2, if_neg b, if_neg h1]

theorem additionalWord_eq_spec (v : whisper_vocab) (i : Int)
    (h1 : v.token_eot ≤ v.token_beg) (h2 : v.token_sot ≤ v.token_beg)
    (h3 : v.token_prev ≤ v.token_beg) (h4 : v.token_not ≤ v.token_beg) :
    additionalWord v i = specTokenText v i := by
  unfold additionalWord specTokenText
  by_cases hb : i > v.token_beg
  · have e1 : i ≠ v.token_eot := by omega
    have e2 : i ≠ v.token_sot := by omega
    have e3 : i ≠ v.token_prev := by omega
    have e4 : i ≠ v.token_not := by omega
    have e5 : i ≠ v.token_beg := by omega
    simp [hb, e1, e2, e3, e4, e5]
  · simp [hb]

theorem loadFiltersVocab_some {p : List UInt8} {ml : Bool} {s s1 : TFLiteEngine}
    (h : TFLiteEngine.loadFiltersVocab p ml s = some s1) :
    ∃ filters p4 n_vocab p5 m p6,
      readFilters p = some (filters, p4) ∧ readInt32 p4 = some (n_vocab, p5) ∧
      readVocab n_vocab.toNat 0 p5 s.g_vocab.id_to_token = some (m, p6) ∧
      s1 = { s with
        filters := filters
        g_vocab :=
          { (if ml then bumpSpecial s.g_vocab else s.g_vocab) with
            id_to_token :=
              addAdditional (if ml then bumpSpecial s.g_vocab else s.g_vocab)
                (n_vocab_additional ml - n_vocab).toNat n_vocab m } } := by
  unfold TFLiteEngine.loadFiltersVocab at h
  split at h
  · exact absurd h (by simp)
  · rename_i filters p4 hf
    split at h
    · exact absurd h (by simp)
    · rename_i n_vocab p5 hn
      split at h
      · exact absurd h (by simp)
      · rename_i m p6 hv
        refine ⟨filters, p4, n_vocab, p5, m, p6, hf, hn, hv, ?_⟩
        simpa using h.symm

theorem loadModel_uninit {env : Env} {path : String} {ml : Bool} {s : TFLiteEngine}
    {r : Int} {s' : TFLiteEngine} (hs : s.is_whisper_tflite_initialized = false)
    (h : TFLiteEngine.loadModel env path ml s = some (r, s')) :
    (∃ magic p, readInt32 (env.vocabData ml) = some (magic, p) ∧ magic ≠ 0x57535052 ∧
      r = -1 ∧ s' = s) ∨
    (∃ p s1, readInt32 (env.vocabData ml) = some (0x57535052, p) ∧
      TFLiteEngine.loadFiltersVocab p ml s = some s1 ∧
      ((env.openModel path = none ∧ r = -1 ∧ s' = s1) ∨
       (∃ buffer, env.openModel path = some buffer ∧ env.tfliteOk buffer = true ∧ r = 0 ∧
          s' = { s1 with buffer := some buffer, is_whisper_tflite_initialized := true }))) := by
  unfold TFLiteEngine.loadModel at h
  rw [hs] at h
  simp only [Bool.false_eq_true, if_false] at h
  split at h
  · exact absurd h (by simp)
  · rename_i magic p hm
    by_cases hmagic : magic ≠ 0x57535052
    · rw [if_pos hmagic] at h
      left
      simp only [Option.some.injEq, Prod.mk.injEq] at h
      exact ⟨magic, p, hm, hmagic, h.1.symm, h.2.symm⟩
    · rw [if_neg hmagic] at h
      have hmagic' : magic = 0x57535052 := by simpa using hmagic
      subst hmagic'
      right
      split at h
      · exact absurd h (by simp)
      · rename_i s1 h1
        refine ⟨p, s1, hm, h1, ?_⟩
        split at h
        · rename_i ho
          simp only [Option.some.injEq, Prod.mk.injEq] at h
          exact Or.inl ⟨ho, h.1.symm, h.2.symm⟩
        · rename_i buffer ho
          by_cases hok : env.tfliteOk buffer = true
          · rw [if_pos hok] at h
            simp only [Option.some.injEq, Prod.mk.injEq] at h
            exact Or.inr ⟨buffer, ho, hok, h.1.symm, h.2.symm⟩
          · rw [if_neg hok] at h
            exact absurd h (by simp)

theorem loadModel_ok {env : Env} {path : String} {ml : Bool} {s s' : TFLiteEngine}
    (hs : s.is_whisper_tflite_initialized = false)
    (h : TFLiteEngine.loadModel env path ml s = some (0, s')) :
    ∃ p s1 buffer, readInt32 (env.vocabData ml) = some (0x57535052, p) ∧
      TFLiteEngine.loadFiltersVocab p ml s = some s1 ∧
      env.openModel path = some buffer ∧ env.tfliteOk buffer = true ∧
      s' = { s1 with buffer := some buffer, is_whisper_tflite_initialized := true } := by
  rcases loadModel_uninit hs h with ⟨_, _, _, _, hr, _⟩ | ⟨p, s1, hm, h1, hcase⟩
  · omega
  · rcases hcase with ⟨_, hr, _⟩ | ⟨buffer, ho, hok, _, hs'⟩
    · omega
    · exact ⟨p, s1, buffer, hm, h1, ho, hok, hs'⟩

theorem n_vocab_of_eq {blob p p4 p5 : List UInt8} {magic n_vocab : Int}
    {filters : whisper_filters}
    (hm : readInt32 blob = some (magic, p)) (hf : readFilters p = some (filters, p4))
    (hn : readInt32 p4 = some (n_vocab, p5)) : n_vocab_of blob = some n_vocab := by
  simp [n_vocab_of, hm, hf, hn]

theorem loaded_vocab {env : Env} {path : String} {ml : Bool} {s s' : TFLiteEngine}
    (hs : s.is_whisper_tflite_initialized = false)
    (h : TFLiteEngine.loadModel env path ml s = some (0, s')) :
    ∃ n_vocab m, n_vocab_of (env.vocabData ml) = some n_vocab ∧
      s'.g_vocab =
        { (if ml then bumpSpecial s.g_vocab else s.g_vocab) with
          id_to_token :=
            addAdditional (if ml then bumpSpecial s.g_vocab else s.g_vocab)
              (n_vocab_additional ml - n_vocab).toNat n_vocab m } := by
  obtain ⟨p, s1, buffer, hm, h1, _, _, hs'⟩ := loadModel_ok hs h
  obtain ⟨filters, p4, n_vocab, p5, m, p6, hf, hn, _, hs1⟩ := loadFiltersVocab_some h1
  refine ⟨n_vocab, m, n_vocab_of_eq hm hf hn, ?_⟩
  rw [hs', hs1]

theorem toNat_ofNat_u8 (n : Nat) : (UInt8.ofNat n).toNat = n % 256 := by
  simp [UInt8.ofNat, UInt8.toNat]

theorem ofNat_toNat_u32 (w : UInt32) : UInt32.ofNat w.toNat = w := by
  apply UInt32.ext
  have h := w.toNat_lt
  simp only [UInt32.ofNat, UInt32.toNat, BitVec.toNat_ofNat] at h ⊢
  omega

theorem readInt32_encode (n : Nat) (rest : List UInt8) (h : n < 2147483648) :
    readInt32 (encodeInt32 n ++ rest) = some ((n : Int), rest) := by
  simp only [encodeInt32, List.cons_append, List.nil_append, readInt32, int32OfBytes,
    toNat_ofNat_u8]
  have e : n % 256 % 256 + 256 * (n / 256 % 256 % 256) + 65536 * (n / 65536 % 256 % 256) +
      16777216 * (n / 16777216 % 256 % 256) = n := by omega
  rw [e, if_pos h]

theorem float32OfBytes_encode (w : Float32) :
    float32OfBytes (UInt8.ofNat (w.toNat % 256)) (UInt8.ofNat (w.toNat / 256 % 256))
      (UInt8.ofNat (w.toNat / 65536 % 256)) (UInt8.ofNat (w.toNat / 16777216 % 256)) = w := by
  unfold float32OfBytes
  simp only [toNat_ofNat_u8]
  have hlt := w.toNat_lt
  have e : w.toNat % 256 % 256 + 256 * (w.toNat / 256 % 256 % 256) +
      65536 * (w.toNat / 65536 % 256 % 256) +
      16777216 * (w.toNat / 16777216 % 256 % 256) = w.toNat := by omega
  rw [e]
  exact ofNat_toNat_u32 w

theorem readFloats_step (n : Nat) (w : Float32) (p : List UInt8) :
    readFloats (n + 1) (encodeFloat w ++ p) =
      match readFloats n p with
      | some (ws, q) =>
        some (float32OfBytes (UInt8.ofNat (w.toNat % 256)) (UInt8.ofNat (w.toNat / 256 % 256))
          (UInt8.ofNat (w.toNat / 65536 % 256)) (UInt8.ofNat (w.toNat / 16777216 % 256)) :: ws, q)
      | none => none := rfl

theorem readFloats_encode (ws : List Float32) (rest : List UInt8) :
    readFloats ws.length ((ws.map encodeFloat).flatten ++ rest) = some (ws, rest) := by
  induction ws with
  | nil => simp [readFloats]
  | cons w ws ih =>
    rw [List.map_cons, List.flatten_cons, List.length_cons, List.append_assoc,
      readFloats_step, ih, float32OfBytes_encode]

theorem readString_encode (word : ByteString) (rest : List UInt8) :
    readString (word.length : Int) (word ++ rest) = some (word, rest) := by
  unfold readString
  have h : 0 ≤ (word.length : Int) ∧ (word.length : Int).toNat ≤ (word ++ rest).length := by
    simp
  rw [if_pos h]
  simp

theorem readVocab_encode (words : List ByteString) (rest : List UInt8)
    (hlen : ∀ w ∈ words, w.length < 2147483648) (i0 : Int) (m : TokenMap) :
    ∃ m', readVocab words.length i0 ((words.map encodeString).flatten ++ rest) m =
        some (m', rest) ∧
      ∀ j : Int, m'.find j =
        if i0 ≤ j ∧ j < i0 + words.length then words[(j - i0).toNat]? else m.find j := by
  induction words generalizing i0 m with
  | nil =>
    refine ⟨m, by simp [readVocab], ?_⟩
    intro j
    have : ¬ (i0 ≤ j ∧ j < i0 + (([] : List ByteString).length : Int)) := by
      simp only [List.length_nil, Nat.cast_zero]; omega
    rw [if_neg this]
  | cons w ws ih =>
    obtain ⟨m', hm', hfind⟩ := ih (fun x hx => hlen x (List.mem_cons_of_mem _ hx)) (i0 + 1)
      (TokenMap.assign m i0 w)
    refine ⟨m', ?_, ?_⟩
    · simp only [List.map_cons, List.flatten_cons, List.length_cons, encodeString,
        List.append_assoc, readVocab]
      rw [readInt32_encode _ _ (hlen w (List.mem_cons_self _ _))]
      simp only [readString_encode]
      exact hm'
    · intro j
      rw [hfind j, find_assign]
      by_cases h1 : j = i0
      · subst h1
        have a : ¬ (j + 1 ≤ j ∧ j < j + 1 + (ws.length : Int)) := by omega
        have b : j ≤ j ∧ j < j + ((w :: ws).length : Int) := by
          simp only [List.length_cons, Nat.cast_add, Nat.cast_one]; omega
        rw [if_neg a, if_pos b, if_pos rfl]
        simp
      · by_cases h2 : i0 + 1 ≤ j ∧ j < i0 + 1 + (ws.length : Int)
        · have b : i0 ≤ j ∧ j < i0 + ((w :: ws).length : Int) := by
            simp only [List.length_cons, Nat.cast_add, Nat.cast_one]; omega
          rw [if_pos h2, if_pos b]
          have e : (j - i0).toNat = (j - (i0 + 1)).toNat + 1 := by omega
          rw [e, List.getElem?_cons_succ]
        · have b : ¬ (i0 ≤ j ∧ j < i0 + ((w :: ws).length : Int)) := by
            simp only [List.length_cons, Nat.cast_add, Nat.cast_one]; omega
          rw [if_neg h2, if_neg b, if_neg h1]

theorem readFilters_encode (n_mel n_fft : Nat) (weights : List Float32) (rest : List UInt8)
    (hw : weights.length = n_mel * n_fft) (h1 : n_mel < 2147483648) (h2 : n_fft < 2147483648)
    (h3 : n_mel * n_fft < 2147483648) :
    readFilters (encodeInt32 n_mel ++ (encodeInt32 n_fft ++
        ((weights.map encodeFloat).flatten ++ rest))) =
      some ({ n_mel := n_mel, n_fft := n_fft, data := weights }, rest) := by
  unfold readFilters
  rw [readInt32_encode _ _ h1]
  simp only
  rw [readInt32_encode _ _ h2]
  simp only
  have hprod : (0 : Int) ≤ (n_mel : Int) * (n_fft : Int) ∧
      (n_mel : Int) * (n_fft : Int) < 2147483648 := by
    constructor
    · positivity
    · exact_mod_cast h3
  rw [if_pos hprod]
  have hn : ((n_mel : Int) * (n_fft : Int)).toNat = weights.length := by
    rw [hw, ← Nat.cast_mul, Int.toNat_ofNat]
  rw [hn, readFloats_encode]

theorem loadFiltersVocab_encode (ml : Bool) (s : TFLiteEngine) (n_mel n_fft : Nat)
    (weights : List Float32) (words : List ByteString)
    (hw : weights.length = n_mel * n_fft) (h1 : n_mel < 2147483648) (h2 : n_fft < 2147483648)
    (h3 : n_mel * n_fft < 2147483648) (h4 : words.length < 2147483648)
    (h5 : ∀ w ∈ words, w.length < 2147483648) :
    ∃ s1, TFLiteEngine.loadFiltersVocab
        (encodeInt32 n_mel ++ (encodeInt32 n_fft ++ ((weights.map encodeFloat).flatten ++
          (encodeInt32 words.length ++ (words.map encodeString).flatten)))) ml s = some s1 ∧
      s1.is_whisper_tflite_initialized = s.is_whisper_tflite_initialized ∧
      s1.filters = { n_mel := n_mel, n_fft := n_fft, data := weights } ∧
      ∀ i (hi : i < words.length),
        s1.g_vocab.id_to_token.find (i : Int) = some (words.get ⟨i, hi⟩) := by
  obtain ⟨m', hm', hfind⟩ := readVocab_encode words [] h5 0 s.g_vocab.id_to_token
  rw [List.append_nil] at hm'
  have hload : TFLiteEngine.loadFiltersVocab
      (encodeInt32 n_mel ++ (encodeInt32 n_fft ++ ((weights.map encodeFloat).flatten ++
        (encodeInt32 words.length ++ (words.map encodeString).flatten)))) ml s =
      some { s with
        filters := { n_mel := n_mel, n_fft := n_fft, data := weights }
        g_vocab :=
          { (if ml then bumpSpecial s.g_vocab else s.g_vocab) with
            id_to_token :=
              addAdditional (if ml then bumpSpecial s.g_vocab else s.g_vocab)
                (n_vocab_additional ml - (words.length : Int)).toNat words.length m' } } := by
    unfold TFLiteEngine.loadFiltersVocab
    rw [readFilters_encode n_mel n_fft weights _ hw h1 h2 h3]
    simp only
    rw [readInt32_encode _ _ h4]
    simp only [Int.toNat_ofNat]
    rw [hm']
  refine ⟨_, hload, rfl, rfl, ?_⟩
  intro i hi
  simp only
  rw [addAdditional_find]
  have a : ¬ ((words.length : Int) ≤ (i : Int) ∧
      (i : Int) < (words.length : Int) +
        ((n_vocab_additional ml - (words.length : Int)).toNat : Int)) := by omega
  rw [if_neg a, hfind]
  have b : (0 : Int) ≤ (i : Int) ∧ (i : Int) < 0 + (words.length : Int) := by omega
  rw [if_pos b]
  simp [List.getElem?_eq_getElem hi]

theorem loadModel_encode (env : Env) (path : String) (ml : Bool) (s : TFLiteEngine)
    (n_mel n_fft : Nat) (weights : List Float32) (words : List ByteString)
    (hs : s.is_whisper_tflite_initialized = false)
    (hblob : env.vocabData ml = encodeBlob n_mel n_fft weights words)
    (hw : weights.length = n_mel * n_fft) (h1 : n_mel < 2147483648) (h2 : n_fft < 2147483648)
    (h3 : n_mel * n_fft < 2147483648) (h4 : words.length < 2147483648)
    (h5 : ∀ w ∈ words, w.length < 2147483648)
    (hok : ∀ buffer, env.openModel path = some buffer → env.tfliteOk buffer = true) :
    ∃ r s', TFLiteEngine.loadModel env path ml s = some (r, s') ∧
      (r = 0 ↔ (env.openModel path).isSome = true) ∧
      s'.filters = { n_mel := n_mel, n_fft := n_fft, data := weights } ∧
      ∀ i (hi : i < words.length),
        s'.g_vocab.id_to_token.find (i : Int) = some (words.get ⟨i, hi⟩) := by
  obtain ⟨s1, hs1, _, hf, hv⟩ :=
    loadFiltersVocab_encode ml s n_mel n_fft weights words hw h1 h2 h3 h4 h5
  have hmagic : readInt32 (env.vocabData ml) = some (0x57535052,
      encodeInt32 n_mel ++ (encodeInt32 n_fft ++ ((weights.map encodeFloat).flatten ++
        (encodeInt32 words.length ++ (words.map encodeString).flatten)))) := by
    rw [hblob]
    unfold encodeBlob
    exact readInt32_encode 0x57535052 _ (by norm_num)
  unfold TFLiteEngine.loadModel
  rw [hs, hmagic]
  simp only [Bool.false_eq_true, if_false, ne_eq, not_true_eq_false, hs1]
  cases ho : env.openModel path with
  | none =>
    refine ⟨-1, s1, rfl, by simp, hf, hv⟩
  | some buffer =>
    simp only [hok buffer ho, if_true]
    exact ⟨0, _, rfl, by simp, hf, hv⟩

theorem loadModel_of_parts (env : Env) (path : String) (ml : Bool) {s s1 : TFLiteEngine}
    {p : List UInt8} (hs : s.is_whisper_tflite_initialized = false)
    (hm : readInt32 (env.vocabData ml) = some (0x57535052, p))
    (h1 : TFLiteEngine.loadFiltersVocab p ml s = some s1) :
    TFLiteEngine.loadModel env path ml s =
      match env.openModel path with
      | none => some (-1, s1)
      | some buffer =>
        if env.tfliteOk buffer then
          some (0, { s1 with buffer := some buffer, is_whisper_tflite_initialized := true })
        else none := by
  unfold TFLiteEngine.loadModel
  rw [hs, hm]
  simp only [Bool.false_eq_true, if_false, ne_eq, not_true_eq_false, h1]

theorem loadFiltersVocab_vocab {blob p : List UInt8} {magic n : Int} {ml : Bool}
    {s s1 : TFLiteEngine} (hm : readInt32 blob = some (magic, p))
    (h1 : TFLiteEngine.loadFiltersVocab p ml s = some s1) (hn : n_vocab_of blob = some n) :
    s1.is_whisper_tflite_initialized = s.is_whisper_tflite_initialized ∧
    s1.buffer = s.buffer ∧
    ∃ m, s1.g_vocab =
      { (if ml then bumpSpecial s.g_vocab else s.g_vocab) with
        id_to_token :=
          addAdditional (if ml then bumpSpecial s.g_vocab else s.g_vocab)
            (n_vocab_additional ml - n).toNat n m } := by
  obtain ⟨filters, p4, n_vocab, p5, m, p6, hf, hn', _, hs1⟩ := loadFiltersVocab_some h1
  have e := n_vocab_of_eq hm hf hn'
  rw [hn] at e
  have e' : n = n_vocab := by simpa using e
  subst e'
  rw [hs1]
  exact ⟨rfl, rfl, m, rfl⟩

theorem tinyBlob_magic :
    readInt32 tinyBlob = some (0x57535052,
      encodeInt32 0 ++ (encodeInt32 0 ++ ((([] : List Float32).map encodeFloat).flatten ++
        (encodeInt32 [cstr " hello"].length ++ ([cstr " hello"].map encodeString).flatten)))) :=
  readInt32_encode 0x57535052 _ (by norm_num)

theorem tinyBlob_n_vocab : n_vocab_of tinyBlob = some 1 := by decide

theorem whisperEnv_loadFiltersVocab (ml : Bool) (s : TFLiteEngine) :
    ∃ s1, TFLiteEngine.loadFiltersVocab
        (encodeInt32 0 ++ (encodeInt32 0 ++ ((([] : List Float32).map encodeFloat).flatten ++
          (encodeInt32 [cstr " hello"].length ++ ([cstr " hello"].map encodeString).flatten))))
        ml s = some s1 ∧
      s1.g_vocab.id_to_token.find 0 = some (cstr " hello") := by
  obtain ⟨s1, h1, _, _, hv⟩ := loadFiltersVocab_encode ml s 0 0 [] [cstr " hello"]
    rfl (by norm_num) (by norm_num) (by norm_num) (by decide) (by decide)
  exact ⟨s1, h1, hv 0 (by decide)⟩

theorem decodeTokens_filter (v : whisper_vocab) (xs : List Int) (text : ByteString) :
    decodeTokens v (xs.filter (fun t => decide (¬ t > v.token_eot))) text =
      decodeTokens v xs text := by
  induction xs generalizing text with
  | nil => rfl
  | cons t ts ih =>
    by_cases hgt : t > v.token_eot
    · have h1 : t ≠ v.token_eot := by omega
      have h2 : ¬ t < v.token_eot := by omega
      rw [List.filter_cons_of_neg (by simpa using hgt)]
      conv_rhs => unfold decodeTokens
      rw [if_neg h1, if_neg h2]
      exact ih text
    · rw [List.filter_cons_of_pos (by simpa using hgt)]
      unfold decodeTokens
      by_cases h1 : t = v.token_eot
      · rw [if_pos h1, if_pos h1]
      · have h2 : t < v.token_eot := by omega
        rw [if_neg h1, if_neg h1, if_pos h2, if_pos h2]
        cases v.id_to_token.find t with
        | none => exact ih text
        | some w => exact ih (text ++ w)

theorem whisperEnv_load (ml : Bool) :
    ∃ s', TFLiteEngine.loadModel whisperEnv "whisper.tflite" ml TFLiteEngine.fresh =
        some (0, s') ∧
      s'.g_vocab.id_to_token.find 0 = some (cstr " hello") := by
  obtain ⟨s1, h1, hv⟩ := whisperEnv_loadFiltersVocab ml TFLiteEngine.fresh
  refine ⟨{ s1 with buffer := some [], is_whisper_tflite_initialized := true }, ?_, hv⟩
  have hm : readInt32 (whisperEnv.vocabData ml) = some (0x57535052,
      encodeInt32 0 ++ (encodeInt32 0 ++ ((([] : List Float32).map encodeFloat).flatten ++
        (encodeInt32 [cstr " hello"].length ++
          ([cstr " hello"].map encodeString).flatten)))) := by
    cases ml <;> exact tinyBlob_magic
  rw [loadModel_of_parts whisperEnv "whisper.tflite" ml rfl hm h1]
  rfl

theorem whisperEnv_n_vocab (ml : Bool) : n_vocab_of (whisperEnv.vocabData ml) = some 1 := by
  cases ml <;> exact tinyBlob_n_vocab

theorem transcribeLoop_eq (env : Env) (s : TFLiteEngine) (pcmf32 : List Float32)
    (count i : Nat) (text : ByteString) :
    TFLiteEngine.transcribeLoop env s pcmf32 count i text =
      text ++ ((List.range' i count).map
        (fun j => TFLiteEngine.transcribeBuffer env s (TFLiteEngine.chunk env pcmf32 j))).flatten := by
  induction count generalizing i text with
  | zero => simp [TFLiteEngine.transcribeLoop]
  | succ n ih =>
    unfold TFLiteEngine.transcribeLoop
    simp only
    rw [ih, List.range'_succ, List.map_cons, List.flatten_cons, List.append_assoc]

theorem transcribeBuffer_failed (env : Env) (s : TFLiteEngine) (samples : List Float32)
    (hfail :
      env.log_mel_spectrogram
          (resize samples (env.WHISPER_SAMPLE_RATE * env.WHISPER_CHUNK_SIZE) 0) s.filters = none ∨
      ∃ mel, env.log_mel_spectrogram
          (resize samples (env.WHISPER_SAMPLE_RATE * env.WHISPER_CHUNK_SIZE) 0) s.filters =
            some mel ∧ env.Invoke mel = none) :
    TFLiteEngine.transcribeBuffer env s samples = [] := by
  unfold TFLiteEngine.transcribeBuffer
  rcases hfail with h | ⟨mel, h, hi⟩
  · simp only [h]
  · simp only [h, hi]

theorem resize_of_length {α : Type} (v : List α) (n : Nat) (fill : α) (h : v.length = n) :
    resize v n fill = v := by
  unfold resize
  rw [← h, List.take_length, Nat.sub_self]
  simp

/-- Two-chunk input: `L` samples `a` followed by one sample `b`. -/
theorem two_chunks (env : Env) (a b : Float32)
    (hL : 0 < env.WHISPER_SAMPLE_RATE * env.WHISPER_CHUNK_SIZE)
    (hI : env.WHISPER_SAMPLE_RATE * env.WHISPER_CHUNK_SIZE < 2147483648) :
    TFLiteEngine.totalChunks env
        (List.replicate (env.WHISPER_SAMPLE_RATE * env.WHISPER_CHUNK_SIZE) a ++ [b]).length = 2 ∧
    TFLiteEngine.chunk env
        (List.replicate (env.WHISPER_SAMPLE_RATE * env.WHISPER_CHUNK_SIZE) a ++ [b]) 0 =
      List.replicate (env.WHISPER_SAMPLE_RATE * env.WHISPER_CHUNK_SIZE) a ∧
    TFLiteEngine.chunk env
        (List.replicate (env.WHISPER_SAMPLE_RATE * env.WHISPER_CHUNK_SIZE) a ++ [b]) 1 =
      b :: List.replicate (env.WHISPER_SAMPLE_RATE * env.WHISPER_CHUNK_SIZE - 1) 0 := by
  have hlen : (List.replicate (env.WHISPER_SAMPLE_RATE * env.WHISPER_CHUNK_SIZE) a ++ [b]).length
      = env.WHISPER_SAMPLE_RATE * env.WHISPER_CHUNK_SIZE + 1 := by simp
  have hT : (List.replicate (env.WHISPER_SAMPLE_RATE * env.WHISPER_CHUNK_SIZE) a ++ [b]).length
      < 2305843009213693952 := by rw [hlen]; omega
  have hn : TFLiteEngine.totalChunks env
      (List.replicate (env.WHISPER_SAMPLE_RATE * env.WHISPER_CHUNK_SIZE) a ++ [b]).length = 2 := by
    rw [totalChunks_eq env _ hL hI hT, hlen]
    apply le_antisymm
    · rw [ceilDiv_le_iff _ _ _ hL]; omega
    · by_contra hlt
      have := (ceilDiv_le_iff (env.WHISPER_SAMPLE_RATE * env.WHISPER_CHUNK_SIZE + 1) _ 1 hL).1
        (by omega)
      omega
  refine ⟨hn, ?_, ?_⟩
  · rw [chunk_eq env _ 0 hL hI hT (by rw [hn]; decide), hlen]
    generalize env.WHISPER_SAMPLE_RATE * env.WHISPER_CHUNK_SIZE = L at *
    have e : L - min L (L + 1 - 0 * L) = 0 := by
      rw [Nat.zero_mul]; omega
    rw [e, Nat.zero_mul, List.drop_zero, List.replicate_zero, List.append_nil,
      List.take_append_of_le_length (by simp), List.take_of_length_le (by simp)]
  · rw [chunk_eq env _ 1 hL hI hT (by rw [hn]; decide), hlen]
    generalize env.WHISPER_SAMPLE_RATE * env.WHISPER_CHUNK_SIZE = L at *
    have e : L - min L (L + 1 - 1 * L) = L - 1 := by
      rw [Nat.one_mul]; omega
    have hd : (List.replicate L a ++ [b]).drop (1 * L) = [b] := by
      rw [Nat.one_mul]
      exact List.drop_left' (by simp)
    rw [e, hd, List.take_of_length_le (by simp; omega)]
    rfl

theorem head_replicate {α : Type} (n : Nat) (x : α) (h : 0 < n) :
    (List.replicate n x).head? = some x := by
  cases n with
  | zero => omega
  | succ k => rfl

theorem whisperEnv_log_mel (c : List Float32) (f : whisper_filters) :
    whisperEnv.log_mel_spectrogram c f = if c.head? = some 1 then none else some c := rfl

theorem chunk_length (env : Env) (pcmf32 : List Float32) (i : Nat)
    (hL : 0 < env.WHISPER_SAMPLE_RATE * env.WHISPER_CHUNK_SIZE)
    (hI : env.WHISPER_SAMPLE_RATE * env.WHISPER_CHUNK_SIZE < 2147483648)
    (hT : pcmf32.length < 2305843009213693952)
    (hi : i < TFLiteEngine.totalChunks env pcmf32.length) :
    (TFLiteEngine.chunk env pcmf32 i).length =
      env.WHISPER_SAMPLE_RATE * env.WHISPER_CHUNK_SIZE := by
  rw [chunk_eq env pcmf32 i hL hI hT hi]
  simp only [List.length_append, List.length_take, List.length_drop, List.length_replicate]
  omega

theorem transcribeBuffer_whisperEnv (s : TFLiteEngine) (c : List Float32)
    (hlen : c.length = whisperEnv.WHISPER_SAMPLE_RATE * whisperEnv.WHISPER_CHUNK_SIZE)
    (hhead : c.head? ≠ some 1) (heot : s.g_vocab.token_eot = 50256)
    (hfind : s.g_vocab.id_to_token.find 0 = some (cstr " hello")) :
    TFLiteEngine.transcribeBuffer whisperEnv s c = cstr " hello" := by
  unfold TFLiteEngine.transcribeBuffer
  rw [resize_of_length c _ 0 hlen]
  have h1 : whisperEnv.log_mel_spectrogram c s.filters = some c := by
    rw [whisperEnv_log_mel, if_neg hhead]
  have h2 : whisperEnv.Invoke c = some [0, 50256] := rfl
  simp only [h1, h2]
  unfold decodeTokens
  rw [if_neg (by rw [heot]; decide), if_pos (by rw [heot]; decide), hfind]
  simp only
  unfold decodeTokens
  rw [if_pos heot.symm]
  rfl

theorem twoChunkInput_chunks :
    twoChunkInput.length < 2305843009213693952 ∧
    TFLiteEngine.totalChunks whisperEnv twoChunkInput.length = 2 ∧
    TFLiteEngine.chunk whisperEnv twoChunkInput 0 =
      List.replicate (whisperEnv.WHISPER_SAMPLE_RATE * whisperEnv.WHISPER_CHUNK_SIZE) 1 ∧
    TFLiteEngine.chunk whisperEnv twoChunkInput 1 =
      2 :: List.replicate (whisperEnv.WHISPER_SAMPLE_RATE * whisperEnv.WHISPER_CHUNK_SIZE - 1) 0 := by
  refine ⟨?_, two_chunks whisperEnv 1 2 (by decide) (by decide)⟩
  unfold twoChunkInput
  rw [List.length_append, List.length_replicate]
  decide

theorem twoChunkInput_chunk0_fails (f : whisper_filters) :
    whisperEnv.log_mel_spectrogram
      (resize (TFLiteEngine.chunk whisperEnv twoChunkInput 0)
        (whisperEnv.WHISPER_SAMPLE_RATE * whisperEnv.WHISPER_CHUNK_SIZE) 0) f = none := by
  obtain ⟨_, _, hc0, _⟩ := twoChunkInput_chunks
  rw [hc0, resize_of_length _ _ 0 (List.length_replicate _ _), whisperEnv_log_mel,
    if_pos (head_replicate _ _ (by decide))]

theorem mem_assign {m : TokenMap} {k : Int} {w : ByteString} {e : Int × ByteString}
    (he : e ∈ TokenMap.assign m k w) : e.1 = k ∨ e ∈ m := by
  induction m with
  | nil =>
    simp only [TokenMap.assign, List.mem_singleton] at he
    left
    rw [he]
  | cons a m ih =>
    obtain ⟨k', w'⟩ := a
    unfold TokenMap.assign at he
    by_cases h1 : k' < k
    · rw [if_pos h1, List.mem_cons] at he
      rcases he with he | he
      · right; rw [he]; exact List.mem_cons_self _ _
      · rcases ih he with h | h
        · left; exact h
        · right; exact List.mem_cons_of_mem _ h
    · rw [if_neg h1] at he
      by_cases h2 : k' = k
      · rw [if_pos h2, List.mem_cons] at he
        rcases he with he | he
        · left; rw [he]
        · right; exact List.mem_cons_of_mem _ he
      · rw [if_neg h2, List.mem_cons] at he
        rcases he with he | he
        · left; rw [he]
        · right; exact he

theorem assign_pairwise (m : TokenMap) (k : Int) (w : ByteString)
    (hm : m.Pairwise (fun a b => a.1 < b.1)) :
    (TokenMap.assign m k w).Pairwise (fun a b => a.1 < b.1) := by
  induction m with
  | nil => simp [TokenMap.assign]
  | cons a m ih =>
    obtain ⟨k', w'⟩ := a
    rw [List.pairwise_cons] at hm
    obtain ⟨hhead, htail⟩ := hm
    unfold TokenMap.assign
    by_cases h1 : k' < k
    · rw [if_pos h1, List.pairwise_cons]
      refine ⟨?_, ih htail⟩
      intro e he
      rcases mem_assign he with h | h
      · rw [h]; exact h1
      · exact hhead e h
    · rw [if_neg h1]
      by_cases h2 : k' = k
      · rw [if_pos h2, List.pairwise_cons]
        refine ⟨?_, htail⟩
        intro e he
        have := hhead e he
        simp only at this ⊢
        omega
      · rw [if_neg h2, List.pairwise_cons, List.pairwise_cons]
        refine ⟨?_, hhead, htail⟩
        intro e he
        rw [List.mem_cons] at he
        rcases he with he | he
        · rw [he]
          simp only
          omega
        · have := hhead e he
          simp only at this ⊢
          omega

theorem addAdditional_pairwise (v : whisper_vocab) (count : Nat) (i : Int) (m : TokenMap)
    (hm : m.Pairwise (fun a b => a.1 < b.1)) :
    (addAdditional v count i m).Pairwise (fun a b => a.1 < b.1) := by
  induction count generalizing i m with
  | zero => exact hm
  | succ n ih =>
    unfold addAdditional
    exact ih _ _ (assign_pairwise m i _ hm)

theorem readVocab_pairwise (count : Nat) (i : Int) (p : List UInt8) (m m' : TokenMap)
    (p' : List UInt8) (h : readVocab count i p m = some (m', p'))
    (hm : m.Pairwise (fun a b => a.1 < b.1)) :
    m'.Pairwise (fun a b => a.1 < b.1) := by
  induction count generalizing i p m with
  | zero =>
    simp only [readVocab, Option.some.injEq, Prod.mk.injEq] at h
    rw [← h.1]
    exact hm
  | succ n ih =>
    unfold readVocab at h
    split at h
    · exact absurd h (by simp)
    · split at h
      · exact absurd h (by simp)
      · exact ih _ _ _ h (assign_pairwise m i _ hm)

theorem readVocab_find (count : Nat) (i : Int) (p : List UInt8) (m m' : TokenMap)
    (p' : List UInt8) (h : readVocab count i p m = some (m', p')) (j : Int)
    (hj : i ≤ j ∧ j < i + count) : ∃ w, m'.find j = some w := by
  have keep : ∀ (count : Nat) (i : Int) (p : List UInt8) (m m' : TokenMap) (p' : List UInt8),
      readVocab count i p m = some (m', p') → ∀ j w, j < i → m.find j = some w →
        m'.find j = some w := by
    intro count
    induction count with
    | zero =>
      intro i p m m' p' h j w _ hf
      simp only [readVocab, Option.some.injEq, Prod.mk.injEq] at h
      rw [← h.1]
      exact hf
    | succ n ih =>
      intro i p m m' p' h j w hlt hf
      unfold readVocab at h
      split at h
      · exact absurd h (by simp)
      · split at h
        · exact absurd h (by simp)
        · apply ih _ _ _ _ _ h j w (by omega)
          rw [find_assign, if_neg (by omega)]
          exact hf
  induction count generalizing i p m with
  | zero => omega
  | succ n ih =>
    unfold readVocab at h
    split at h
    · exact absurd h (by simp)
    · split at h
      · exact absurd h (by simp)
      · rename_i word p2 _
        by_cases hji : j = i
        · refine ⟨word, keep _ _ _ _ _ _ h j word (by omega) ?_⟩
          rw [find_assign, if_pos hji]
        · exact ih _ _ _ h (by push_cast at hj; omega)

theorem count_of_pairwise (m : TokenMap) (k : Int) (w : ByteString)
    (hm : m.Pairwise (fun a b => a.1 < b.1)) (hf : m.find k = some w) :
    (m.filter (fun e => decide (e.1 = k))).length = 1 := by
  induction m with
  | nil => simp [TokenMap.find] at hf
  | cons a m ih =>
    obtain ⟨k', w'⟩ := a
    rw [List.pairwise_cons] at hm
    obtain ⟨hhead, htail⟩ := hm
    by_cases h : k' = k
    · rw [List.filter_cons_of_pos (by simpa using h)]
      have hnone : m.filter (fun e => decide (e.1 = k)) = [] := by
        rw [List.filter_eq_nil_iff]
        intro e he
        have := hhead e he
        simp only at this
        simp only [decide_eq_true_eq]
        omega
      rw [hnone]
      rfl
    · rw [List.filter_cons_of_neg (by simpa using h)]
      apply ih htail
      simpa [TokenMap.find, h] using hf

theorem loadFiltersVocab_covers {p : List UInt8} {ml : Bool} {s s1 : TFLiteEngine}
    (h : TFLiteEngine.loadFiltersVocab p ml s = some s1)
    (hm : s.g_vocab.id_to_token.Pairwise (fun a b => a.1 < b.1)) :
    s1.g_vocab.id_to_token.Pairwise (fun a b => a.1 < b.1) ∧
    ∀ i : Int, 0 ≤ i → i < n_vocab_additional ml →
      ∃ w, s1.g_vocab.id_to_token.find i = some w := by
  obtain ⟨filters, p4, n_vocab, p5, m, p6, _, _, hv, hs1⟩ := loadFiltersVocab_some h
  have hpm := readVocab_pairwise _ _ _ _ _ _ hv hm
  rw [hs1]
  refine ⟨addAdditional_pairwise _ _ _ _ hpm, ?_⟩
  intro i h0 hhi
  show ∃ w, (addAdditional _ _ n_vocab m).find i = some w
  rw [addAdditional_find]
  by_cases hi : n_vocab ≤ i
  · rw [if_pos ⟨hi, by omega⟩]
    exact ⟨_, rfl⟩
  · rw [if_neg (fun hc => hi hc.1)]
    exact readVocab_find _ _ _ _ _ _ hv i (by omega)

theorem loadFiltersVocab_congr {p : List UInt8} {ml : Bool} {s t s1 t1 : TFLiteEngine}
    (hg : s.g_vocab = t.g_vocab)
    (hs : TFLiteEngine.loadFiltersVocab p ml s = some s1)
    (ht : TFLiteEngine.loadFiltersVocab p ml t = some t1) :
    s1.g_vocab = t1.g_vocab ∧ s1.filters = t1.filters := by
  obtain ⟨f, p4, n, p5, m, p6, hf, hn, hv, hs1⟩ := loadFiltersVocab_some hs
  obtain ⟨f', p4', n', p5', m', p6', hf', hn', hv', ht1⟩ := loadFiltersVocab_some ht
  rw [hf] at hf'
  simp only [Option.some.injEq, Prod.mk.injEq] at hf'
  obtain ⟨rfl, rfl⟩ := hf'
  rw [hn] at hn'
  simp only [Option.some.injEq, Prod.mk.injEq] at hn'
  obtain ⟨rfl, rfl⟩ := hn'
  rw [hg, hv'] at hv
  simp only [Option.some.injEq, Prod.mk.injEq] at hv
  obtain ⟨rfl, rfl⟩ := hv
  rw [hs1, ht1, hg]
  exact ⟨rfl, rfl⟩

theorem resize_length {α : Type} (v : List α) (n : Nat) (fill : α) :
    (resize v n fill).length = n := by
  unfold resize
  rw [List.length_append, List.length_take, List.length_replicate]
  omega

theorem transcribeBuffer_resize (env : Env) (s : TFLiteEngine) (samples : List Float32) :
    TFLiteEngine.transcribeBuffer env s samples =
      TFLiteEngine.transcribeBuffer env s
        (resize samples (env.WHISPER_SAMPLE_RATE * env.WHISPER_CHUNK_SIZE) 0) := by
  unfold TFLiteEngine.transcribeBuffer
  simp only
  rw [resize_of_length (resize samples _ 0) _ 0 (resize_length _ _ _)]

theorem resize_take_append {α : Type} (v extra : List α) (n : Nat) (fill : α)
    (h : n ≤ v.length) : resize (v.take n ++ extra) n fill = resize v n fill := by
  unfold resize
  have hl : (v.take n).length = n := by rw [List.length_take]; omega
  have e1 : n - (v.take n ++ extra).length = 0 := by
    rw [List.length_append, hl]; omega
  have e2 : n - v.length = 0 := by omega
  rw [e1, e2, List.take_append_of_le_length (by omega), List.take_take, Nat.min_self]

/-! # The claims -/

/-! ## C1: the decode loop -/

/-- Claim C1. The decode loop of `transcribeBuffer` returns the concatenation, in
sequence order, of `id_to_token[t]` for exactly the tokens `t` before the first
`end_of_text` that are below `end_of_text` and present in the table; what
follows the first `end_of_text` has no influence; and `[5, 9, end_of_text, 3, 2]`
with `5 -> "a"`, `9 -> "b"` decodes to `"ab"`. -/
theorem C1_decode_concat_until_eot :
    (∀ (v : whisper_vocab) (xs : List Int),
      decodeTokens v xs [] =
        ((xs.takeWhile (fun t => t ≠ v.token_eot)).filterMap
          (fun t => if t < v.token_eot then v.id_to_token.find t else none)).flatten) ∧
    (∀ (v : whisper_vocab) (xs ys : List Int),
      decodeTokens v (xs ++ [v.token_eot] ++ ys) [] = decodeTokens v xs []) ∧
    (∀ (m : TokenMap) (eot : Int), m.find 5 = some (cstr "a") → m.find 9 = some (cstr "b") →
      5 < eot → 9 < eot →
      decodeTokens { whisper_vocab.initial with id_to_token := m, token_eot := eot }
        [5, 9, eot, 3, 2] [] = cstr "ab") := by
  refine ⟨fun v xs => decodeTokens_eq_spec v xs, fun v xs ys => ?_, ?_⟩
  · simpa using decodeTokens_append_eot v xs ys []
  · intro m eot h5 h9 l5 l9
    have e5 : (5 : Int) ≠ eot := by omega
    have e9 : (9 : Int) ≠ eot := by omega
    simp [decodeTokens, h5, h9, l5, l9, e5, e9]
    decide

/-- Witness of C1: the spec's own example, with an entry for the token `3` that
follows `end_of_text`. -/
theorem C1_decode_concat_until_eot_witness :
    decodeTokens
      { whisper_vocab.initial with
        id_to_token := [(3, cstr "c"), (5, cstr "a"), (9, cstr "b")] }
      [5, 9, 50256, 3, 2] [] = cstr "ab" :=
  C1_decode_concat_until_eot.2.2 [(3, cstr "c"), (5, cstr "a"), (9, cstr "b")] 50256
    (by decide) (by decide) (by decide) (by decide)

/-! ## C2: number of chunks -/

/-- Claim C2, as stated, fails on an empty input: with the Whisper constants
(16000 samples per second, 30 second chunks) `transcribeFile` computes zero
chunks for zero samples, not one, and returns the empty text without calling
`transcribeBuffer`. -/
theorem C2_zero_length_input_has_no_chunk :
    0 < whisperEnv.WHISPER_SAMPLE_RATE * whisperEnv.WHISPER_CHUNK_SIZE ∧
    TFLiteEngine.totalChunks whisperEnv ([] : List Float32).length = 0 ∧
    ¬ (1 ≤ TFLiteEngine.totalChunks whisperEnv ([] : List Float32).length) ∧
    TFLiteEngine.transcribeFile whisperEnv TFLiteEngine.fresh [] = [] := by
  have h : TFLiteEngine.totalChunks whisperEnv ([] : List Float32).length = 0 := by decide
  refine ⟨by decide, h, by omega, ?_⟩
  unfold TFLiteEngine.transcribeFile
  rw [h]
  rfl

/-- Claim C2, amended. For a chunk length `L = sample_rate * chunk_seconds` with
`0 < L` (an `int`, so below `2^31`) the number of chunks `transcribeFile`
processes is `ceil(total_samples / L)`; it is at least 1 exactly when the input
is not empty, and zero for a zero-length input; a 45-second input with 30-second
chunks yields exactly 2 chunks. The input is a `std::vector<float>`, whose size
is below `2^61`. -/
theorem C2_totalChunks_is_ceil (env : Env) (total : Nat)
    (hL : 0 < env.WHISPER_SAMPLE_RATE * env.WHISPER_CHUNK_SIZE)
    (hI : env.WHISPER_SAMPLE_RATE * env.WHISPER_CHUNK_SIZE < 2147483648)
    (hT : total < 2305843009213693952) :
    TFLiteEngine.totalChunks env total =
      Nat.ceil ((total : ℚ) / ((env.WHISPER_SAMPLE_RATE * env.WHISPER_CHUNK_SIZE : Nat) : ℚ)) ∧
    (1 ≤ TFLiteEngine.totalChunks env total ↔ 0 < total) ∧
    TFLiteEngine.totalChunks env 0 = 0 ∧
    (env.WHISPER_CHUNK_SIZE = 30 →
      TFLiteEngine.totalChunks env (45 * env.WHISPER_SAMPLE_RATE) = 2) := by
  have h0 : TFLiteEngine.totalChunks env 0 = 0 := by
    rw [totalChunks_eq env 0 hL hI (by norm_num)]
    apply Nat.div_eq_of_lt
    omega
  refine ⟨?_, ?_, h0, ?_⟩
  · rw [totalChunks_eq env total hL hI hT]
    exact ceilDiv_eq_ceil total _ hL
  · rw [totalChunks_eq env total hL hI hT]
    constructor
    · intro h
      by_contra hz
      have : total = 0 := by omega
      subst this
      have := (ceilDiv_le_iff 0 _ 0 hL).2 (by simp)
      omega
    · intro h
      by_contra hz
      have h1 := (ceilDiv_le_iff total _ 0 hL).1 (by omega)
      omega
  · intro hC
    rw [totalChunks_eq env _ hL hI (by rw [hC] at hI; omega)]
    rw [hC] at hL hI ⊢
    apply le_antisymm
    · rw [ceilDiv_le_iff _ _ _ hL]; omega
    · by_contra hlt
      have := (ceilDiv_le_iff (45 * env.WHISPER_SAMPLE_RATE) _ 1 hL).1 (by omega)
      omega

/-- Witness of C2 (amended): the Whisper constants and a 45-second input. -/
theorem C2_totalChunks_is_ceil_witness :
    TFLiteEngine.totalChunks whisperEnv 720000 =
      Nat.ceil (((720000 : Nat) : ℚ) /
        ((whisperEnv.WHISPER_SAMPLE_RATE * whisperEnv.WHISPER_CHUNK_SIZE : Nat) : ℚ)) ∧
    (1 ≤ TFLiteEngine.totalChunks whisperEnv 720000 ↔ 0 < 720000) ∧
    TFLiteEngine.totalChunks whisperEnv 0 = 0 ∧
    (whisperEnv.WHISPER_CHUNK_SIZE = 30 →
      TFLiteEngine.totalChunks whisperEnv (45 * whisperEnv.WHISPER_SAMPLE_RATE) = 2) :=
  C2_totalChunks_is_ceil whisperEnv 720000 (by decide) (by decide) (by decide)

/-! ## C3: content of the chunks -/

/-- Claim C3. Chunk `i` built by `transcribeFile` has length exactly `L`; its
first `min(L, total - i*L)` entries are the samples `[i*L, min((i+1)*L, total))`
of the input and the remaining `L - len` entries are zeros, so a chunk already
of length `L` is the slice itself; and the chunks in order, each cut back to its
unpadded length, concatenate to the input. The chunk length is a positive
`int` (below `2^31`) and the input a `std::vector<float>` (size below `2^61`),
so the `size_t` arithmetic of the source does not wrap. -/
theorem C3_chunks_cover_input (env : Env) (pcmf32 : List Float32)
    (hL : 0 < env.WHISPER_SAMPLE_RATE * env.WHISPER_CHUNK_SIZE)
    (hI : env.WHISPER_SAMPLE_RATE * env.WHISPER_CHUNK_SIZE < 2147483648)
    (hT : pcmf32.length < 2305843009213693952) :
    (∀ i, i < TFLiteEngine.totalChunks env pcmf32.length →
      (TFLiteEngine.chunk env pcmf32 i).length =
        env.WHISPER_SAMPLE_RATE * env.WHISPER_CHUNK_SIZE ∧
      (TFLiteEngine.chunk env pcmf32 i).take
          (min (env.WHISPER_SAMPLE_RATE * env.WHISPER_CHUNK_SIZE)
            (pcmf32.length - i * (env.WHISPER_SAMPLE_RATE * env.WHISPER_CHUNK_SIZE))) =
        (pcmf32.drop (i * (env.WHISPER_SAMPLE_RATE * env.WHISPER_CHUNK_SIZE))).take
          (min ((i + 1) * (env.WHISPER_SAMPLE_RATE * env.WHISPER_CHUNK_SIZE)) pcmf32.length -
            i * (env.WHISPER_SAMPLE_RATE * env.WHISPER_CHUNK_SIZE)) ∧
      (TFLiteEngine.chunk env pcmf32 i).drop
          (min (env.WHISPER_SAMPLE_RATE * env.WHISPER_CHUNK_SIZE)
            (pcmf32.length - i * (env.WHISPER_SAMPLE_RATE * env.WHISPER_CHUNK_SIZE))) =
        List.replicate
          (env.WHISPER_SAMPLE_RATE * env.WHISPER_CHUNK_SIZE -
            min (env.WHISPER_SAMPLE_RATE * env.WHISPER_CHUNK_SIZE)
              (pcmf32.length - i * (env.WHISPER_SAMPLE_RATE * env.WHISPER_CHUNK_SIZE))) 0 ∧
      (env.WHISPER_SAMPLE_RATE * env.WHISPER_CHUNK_SIZE ≤
          pcmf32.length - i * (env.WHISPER_SAMPLE_RATE * env.WHISPER_CHUNK_SIZE) →
        TFLiteEngine.chunk env pcmf32 i =
          (pcmf32.drop (i * (env.WHISPER_SAMPLE_RATE * env.WHISPER_CHUNK_SIZE))).take
            (env.WHISPER_SAMPLE_RATE * env.WHISPER_CHUNK_SIZE))) ∧
    ((List.range (TFLiteEngine.totalChunks env pcmf32.length)).map
      (fun i => (TFLiteEngine.chunk env pcmf32 i).take
        (min (env.WHISPER_SAMPLE_RATE * env.WHISPER_CHUNK_SIZE)
          (pcmf32.length - i * (env.WHISPER_SAMPLE_RATE * env.WHISPER_CHUNK_SIZE))))).flatten
      = pcmf32 := by
  have key : ∀ i, i < TFLiteEngine.totalChunks env pcmf32.length →
      (TFLiteEngine.chunk env pcmf32 i).take
          (min (env.WHISPER_SAMPLE_RATE * env.WHISPER_CHUNK_SIZE)
            (pcmf32.length - i * (env.WHISPER_SAMPLE_RATE * env.WHISPER_CHUNK_SIZE))) =
        (pcmf32.drop (i * (env.WHISPER_SAMPLE_RATE * env.WHISPER_CHUNK_SIZE))).take
          (env.WHISPER_SAMPLE_RATE * env.WHISPER_CHUNK_SIZE) := by
    intro i hi
    rw [chunk_eq env pcmf32 i hL hI hT hi]
    generalize env.WHISPER_SAMPLE_RATE * env.WHISPER_CHUNK_SIZE = L
    have hlen : ((pcmf32.drop (i * L)).take L).length = min L (pcmf32.length - i * L) := by
      simp only [List.length_take, List.length_drop]
    rw [← hlen, List.take_left]
  constructor
  · intro i hi
    have hk := key i hi
    have hc := chunk_eq env pcmf32 i hL hI hT hi
    generalize env.WHISPER_SAMPLE_RATE * env.WHISPER_CHUNK_SIZE = L at *
    have hlen : ((pcmf32.drop (i * L)).take L).length = min L (pcmf32.length - i * L) := by
      simp only [List.length_take, List.length_drop]
    refine ⟨?_, ?_, ?_, ?_⟩
    · rw [hc, List.length_append, hlen, List.length_replicate]
      omega
    · rw [hk]
      by_cases h : i * L + L ≤ pcmf32.length
      · congr 1
        rw [Nat.succ_mul]
        omega
      · rw [List.take_of_length_le (by simp only [List.length_drop]; omega),
          List.take_of_length_le (by
            simp only [List.length_drop]; rw [Nat.succ_mul]; omega)]
    · rw [hc, ← hlen, List.drop_left]
    · intro hfull
      rw [hc]
      have : L - min L (pcmf32.length - i * L) = 0 := by omega
      rw [this]
      simp
  · have hmap : (List.range (TFLiteEngine.totalChunks env pcmf32.length)).map
        (fun i => (TFLiteEngine.chunk env pcmf32 i).take
          (min (env.WHISPER_SAMPLE_RATE * env.WHISPER_CHUNK_SIZE)
            (pcmf32.length - i * (env.WHISPER_SAMPLE_RATE * env.WHISPER_CHUNK_SIZE)))) =
        (List.range (TFLiteEngine.totalChunks env pcmf32.length)).map
          (fun i => (pcmf32.drop (i * (env.WHISPER_SAMPLE_RATE * env.WHISPER_CHUNK_SIZE))).take
            (env.WHISPER_SAMPLE_RATE * env.WHISPER_CHUNK_SIZE)) := by
      apply List.map_congr_left
      intro i hi
      exact key i (List.mem_range.1 hi)
    rw [hmap]
    apply flatten_slices
    rw [totalChunks_eq env _ hL hI hT]
    exact (ceilDiv_le_iff _ _ _ hL).1 le_rfl

/-- Witness of C3: three samples, cut into one chunk of 480000. -/
theorem C3_chunks_cover_input_witness :
    (TFLiteEngine.chunk whisperEnv [1, 2, 3] 0).length =
        whisperEnv.WHISPER_SAMPLE_RATE * whisperEnv.WHISPER_CHUNK_SIZE ∧
    ((List.range (TFLiteEngine.totalChunks whisperEnv ([1, 2, 3] : List Float32).length)).map
      (fun i => (TFLiteEngine.chunk whisperEnv [1, 2, 3] i).take
        (min (whisperEnv.WHISPER_SAMPLE_RATE * whisperEnv.WHISPER_CHUNK_SIZE)
          (([1, 2, 3] : List Float32).length -
            i * (whisperEnv.WHISPER_SAMPLE_RATE * whisperEnv.WHISPER_CHUNK_SIZE))))).flatten
      = [1, 2, 3] :=
  have h := C3_chunks_cover_input whisperEnv [1, 2, 3] (by decide) (by decide) (by decide)
  ⟨(h.1 0 (by decide)).1, h.2⟩

/-! ## C4: synthesised special tokens -/

/-- Claim C4. After a successful `loadModel` from a fresh instance the special
ids are the base constants, each one higher when `is_multilingual`, and every
id `i` with `n_vocab <= i < ceiling` (51865 multilingual, 51864 English-only)
maps to the string the spec's ordered rule list chooses; `solm` falls to the
extra-token rule; the order of the source (greater-than-`begin_timestamp`
first) chooses the same string as the spec's order. -/
theorem C4_synthesised_tokens_follow_spec_rules (env : Env) (path : String) (ml : Bool)
    (s s' : TFLiteEngine) (n_vocab : Int)
    (hs : s.is_whisper_tflite_initialized = false)
    (hv : s.g_vocab = whisper_vocab.initial)
    (h : TFLiteEngine.loadModel env path ml s = some (0, s'))
    (hn : n_vocab_of (env.vocabData ml) = some n_vocab) :
    s'.g_vocab.token_eot = 50256 + (if ml then 1 else 0) ∧
    s'.g_vocab.token_sot = 50257 + (if ml then 1 else 0) ∧
    s'.g_vocab.token_prev = 50360 + (if ml then 1 else 0) ∧
    s'.g_vocab.token_solm = 50361 + (if ml then 1 else 0) ∧
    s'.g_vocab.token_not = 50362 + (if ml then 1 else 0) ∧
    s'.g_vocab.token_beg = 50363 + (if ml then 1 else 0) ∧
    (∀ i : Int, n_vocab ≤ i → i < (if ml then 51865 else 51864) →
      s'.g_vocab.id_to_token.find i = some (specTokenText s'.g_vocab i) ∧
      additionalWord s'.g_vocab i = specTokenText s'.g_vocab i ∧
      (i = s'.g_vocab.token_solm →
        s'.g_vocab.id_to_token.find i =
          some (cstr "[_extra_token_" ++ std_to_string i ++ cstr "]"))) := by
  obtain ⟨n, m, hn', hg⟩ := loaded_vocab hs h
  rw [hn] at hn'
  have hn'' : n = n_vocab := by simpa using hn'.symm
  subst hn''
  rw [hv] at hg
  have e1 : s'.g_vocab.token_eot = 50256 + (if ml then 1 else 0) := by
    rw [hg]; cases ml <;> rfl
  have e2 : s'.g_vocab.token_sot = 50257 + (if ml then 1 else 0) := by
    rw [hg]; cases ml <;> rfl
  have e3 : s'.g_vocab.token_prev = 50360 + (if ml then 1 else 0) := by
    rw [hg]; cases ml <;> rfl
  have e4 : s'.g_vocab.token_solm = 50361 + (if ml then 1 else 0) := by
    rw [hg]; cases ml <;> rfl
  have e5 : s'.g_vocab.token_not = 50362 + (if ml then 1 else 0) := by
    rw [hg]; cases ml <;> rfl
  have e6 : s'.g_vocab.token_beg = 50363 + (if ml then 1 else 0) := by
    rw [hg]; cases ml <;> rfl
  refine ⟨e1, e2, e3, e4, e5, e6, ?_⟩
  intro i hlo hhi
  have hword : ∀ j, additionalWord (if ml then bumpSpecial whisper_vocab.initial
      else whisper_vocab.initial) j = additionalWord s'.g_vocab j := by
    intro j
    rw [hg]
    rfl
  have hfind : s'.g_vocab.id_to_token.find i = some (additionalWord s'.g_vocab i) := by
    rw [← hword]
    have hid : s'.g_vocab.id_to_token =
        addAdditional (if ml then bumpSpecial whisper_vocab.initial else whisper_vocab.initial)
          (n_vocab_additional ml - n).toNat n m := by
      rw [hg]
    rw [hid, addAdditional_find, if_pos]
    refine ⟨hlo, ?_⟩
    unfold n_vocab_additional
    cases ml <;> simp at hhi ⊢ <;> omega
  have hspec : additionalWord s'.g_vocab i = specTokenText s'.g_vocab i := by
    apply additionalWord_eq_spec
    · rw [e1, e6]; split <;> omega
    · rw [e2, e6]; split <;> omega
    · rw [e3, e6]; split <;> omega
    · rw [e5, e6]; split <;> omega
  refine ⟨by rw [hfind, hspec], hspec, ?_⟩
  intro hsolm
  rw [hfind]
  unfold additionalWord
  have a1 : ¬ i > s'.g_vocab.token_beg := by rw [hsolm, e4, e6]; split <;> omega
  have a2 : i ≠ s'.g_vocab.token_eot := by rw [hsolm, e4, e1]; split <;> omega
  have a3 : i ≠ s'.g_vocab.token_sot := by rw [hsolm, e4, e2]; split <;> omega
  have a4 : i ≠ s'.g_vocab.token_prev := by rw [hsolm, e4, e3]; split <;> omega
  have a5 : i ≠ s'.g_vocab.token_not := by rw [hsolm, e4, e5]; split <;> omega
  have a6 : i ≠ s'.g_vocab.token_beg := by rw [hsolm, e4, e6]; split <;> omega
  rw [if_neg a1, if_neg a2, if_neg a3, if_neg a4, if_neg a5, if_neg a6]

/-- Witness of C4: the multilingual load of the small blob. -/
theorem C4_synthesised_tokens_follow_spec_rules_witness :
    ∃ s', TFLiteEngine.loadModel whisperEnv "whisper.tflite" true TFLiteEngine.fresh =
        some (0, s') ∧
      s'.g_vocab.token_eot = 50257 ∧ s'.g_vocab.token_beg = 50364 ∧
      s'.g_vocab.id_to_token.find 50362 = some (specTokenText s'.g_vocab 50362) := by
  obtain ⟨s', h, _⟩ := whisperEnv_load true
  have hall := C4_synthesised_tokens_follow_spec_rules whisperEnv "whisper.tflite" true
    TFLiteEngine.fresh s' 1 rfl rfl h (whisperEnv_n_vocab true)
  exact ⟨s', h, hall.1, hall.2.2.2.2.2.1, (hall.2.2.2.2.2.2 50362 (by decide) (by decide)).1⟩

/-! ## C5: a load that fails -/

/-- Claim C5, evaluated where it fails. A multilingual `loadModel` on a fresh
instance with a well-formed blob and a model path that cannot be opened returns
`-1`, yet the state it leaves differs from the state before the call: the six
special ids are incremented and `id_to_token` is filled. A second `loadModel`,
now with a model file that opens, returns `0` with `end_of_text = 50258`
instead of the multilingual `50257`. -/
theorem C5_failed_open_changes_state :
    ∃ s1, TFLiteEngine.loadModel whisperEnv "missing.tflite" true TFLiteEngine.fresh =
        some (-1, s1) ∧
      s1 ≠ TFLiteEngine.fresh ∧
      s1.is_whisper_tflite_initialized = false ∧
      TFLiteEngine.fresh.g_vocab.token_eot = 50256 ∧ s1.g_vocab.token_eot = 50257 ∧
      TFLiteEngine.fresh.g_vocab.token_beg = 50363 ∧ s1.g_vocab.token_beg = 50364 ∧
      TFLiteEngine.fresh.g_vocab.id_to_token.find 0 = none ∧
      s1.g_vocab.id_to_token.find 0 = some (cstr " hello") ∧
      s1.g_vocab.id_to_token.find 50257 = some (cstr "[_EOT_]") ∧
      ∃ s2, TFLiteEngine.loadModel whisperEnv "whisper.tflite" true s1 = some (0, s2) ∧
        s2.g_vocab.token_eot = 50258 := by
  obtain ⟨s1, h1, hhello⟩ := whisperEnv_loadFiltersVocab true TFLiteEngine.fresh
  obtain ⟨hi1, _, m, hg1⟩ := loadFiltersVocab_vocab tinyBlob_magic h1 tinyBlob_n_vocab
  have heot : s1.g_vocab.token_eot = 50257 := by rw [hg1]; rfl
  have hs1 : s1.is_whisper_tflite_initialized = false := by rw [hi1]; rfl
  obtain ⟨s2, h2, _⟩ := whisperEnv_loadFiltersVocab true s1
  obtain ⟨_, _, m2, hg2⟩ := loadFiltersVocab_vocab tinyBlob_magic h2 tinyBlob_n_vocab
  refine ⟨s1, ?_, ?_, hs1, rfl, heot, rfl, by rw [hg1]; rfl, rfl, hhello, ?_, ?_⟩
  · rw [loadModel_of_parts whisperEnv "missing.tflite" true rfl tinyBlob_magic h1]
    rfl
  · intro h
    rw [h] at heot
    exact absurd heot (by decide)
  · rw [hg1]
    simp only
    rw [addAdditional_find, if_pos (by decide)]
    decide
  · refine ⟨{ s2 with buffer := some [], is_whisper_tflite_initialized := true }, ?_, ?_⟩
    · rw [loadModel_of_parts whisperEnv "whisper.tflite" true hs1 tinyBlob_magic h2]
      rfl
    · show s2.g_vocab.token_eot = 50258
      rw [hg2]
      show s1.g_vocab.token_eot + 1 = 50258
      rw [heot]
      rfl

/-! ## C6: a chunk that fails -/

/-- Claim C6, as stated, fails. After an English-only load of the small blob, on
an input of 30 seconds of samples `1` followed by one sample `2`, feature
extraction fails for chunk 0 and `transcribeBuffer` returns the empty text for
it; `transcribeFile` still transcribes chunk 1 and returns its text `" hello"`:
text of a chunk after the failed one is appended, and the caller receives a
plain string, the same one a run with an empty first chunk text would give. -/
theorem C6_text_appended_after_failed_chunk :
    ∃ s', TFLiteEngine.loadModel whisperEnv "whisper.tflite" false TFLiteEngine.fresh =
        some (0, s') ∧
      TFLiteEngine.totalChunks whisperEnv twoChunkInput.length = 2 ∧
      whisperEnv.log_mel_spectrogram
        (resize (TFLiteEngine.chunk whisperEnv twoChunkInput 0)
          (whisperEnv.WHISPER_SAMPLE_RATE * whisperEnv.WHISPER_CHUNK_SIZE) 0) s'.filters = none ∧
      TFLiteEngine.transcribeBuffer whisperEnv s' (TFLiteEngine.chunk whisperEnv twoChunkInput 0)
        = [] ∧
      TFLiteEngine.transcribeBuffer whisperEnv s' (TFLiteEngine.chunk whisperEnv twoChunkInput 1)
        = cstr " hello" ∧
      TFLiteEngine.transcribeFile whisperEnv s' twoChunkInput = cstr " hello" := by
  obtain ⟨s', h, hfind⟩ := whisperEnv_load false
  have heot : s'.g_vocab.token_eot = 50256 := by
    obtain ⟨n, m, _, hg⟩ := loaded_vocab rfl h
    rw [hg]
    rfl
  obtain ⟨hT, hn, _, hc1⟩ := twoChunkInput_chunks
  have hfail := twoChunkInput_chunk0_fails s'.filters
  have h0 := transcribeBuffer_failed whisperEnv s' _ (Or.inl hfail)
  have h1 : TFLiteEngine.transcribeBuffer whisperEnv s'
      (TFLiteEngine.chunk whisperEnv twoChunkInput 1) = cstr " hello" := by
    apply transcribeBuffer_whisperEnv s' _
      (chunk_length whisperEnv _ 1 (by decide) (by decide) hT (by rw [hn]; decide)) _ heot hfind
    rw [hc1, List.head?_cons]
    decide
  refine ⟨s', h, hn, hfail, h0, h1, ?_⟩
  unfold TFLiteEngine.transcribeFile
  rw [hn, transcribeLoop_eq]
  show [] ++ ([TFLiteEngine.transcribeBuffer whisperEnv s' _,
    TFLiteEngine.transcribeBuffer whisperEnv s' _]).flatten = _
  rw [h0, h1]
  rfl

/-- Claim C6, amended. When feature extraction or inference fails for chunk
`k`, `transcribeBuffer` returns the empty string for that chunk and
`transcribeFile` goes on with the chunks that follow: what it returns is the
texts of the chunks before `k` followed by the texts of all chunks after `k`,
a plain string that carries no sign of the failure. -/
theorem C6_failed_chunk_contributes_empty_text (env : Env) (s : TFLiteEngine)
    (pcmf32 : List Float32) (k : Nat)
    (hk : k < TFLiteEngine.totalChunks env pcmf32.length)
    (hfail :
      env.log_mel_spectrogram
          (resize (TFLiteEngine.chunk env pcmf32 k)
            (env.WHISPER_SAMPLE_RATE * env.WHISPER_CHUNK_SIZE) 0) s.filters = none ∨
      ∃ mel, env.log_mel_spectrogram
          (resize (TFLiteEngine.chunk env pcmf32 k)
            (env.WHISPER_SAMPLE_RATE * env.WHISPER_CHUNK_SIZE) 0) s.filters = some mel ∧
        env.Invoke mel = none) :
    TFLiteEngine.transcribeBuffer env s (TFLiteEngine.chunk env pcmf32 k) = [] ∧
    TFLiteEngine.transcribeFile env s pcmf32 =
      ((List.range' 0 k).map
        (fun j => TFLiteEngine.transcribeBuffer env s (TFLiteEngine.chunk env pcmf32 j))).flatten ++
      ((List.range' (k + 1) (TFLiteEngine.totalChunks env pcmf32.length - (k + 1))).map
        (fun j => TFLiteEngine.transcribeBuffer env s (TFLiteEngine.chunk env pcmf32 j))).flatten := by
  have h0 := transcribeBuffer_failed env s _ hfail
  refine ⟨h0, ?_⟩
  unfold TFLiteEngine.transcribeFile
  rw [transcribeLoop_eq, List.nil_append]
  have hsplit : List.range' 0 (TFLiteEngine.totalChunks env pcmf32.length) =
      List.range' 0 k ++ k :: List.range' (k + 1)
        (TFLiteEngine.totalChunks env pcmf32.length - (k + 1)) := by
    have e : TFLiteEngine.totalChunks env pcmf32.length =
        ((TFLiteEngine.totalChunks env pcmf32.length - (k + 1)) + 1) + k := by omega
    conv_lhs => rw [e]
    rw [← List.range'_append_1, List.range'_succ, Nat.zero_add]
  rw [hsplit, List.map_append, List.map_cons, List.flatten_append, List.flatten_cons, h0,
    List.nil_append]

/-- Witness of C6 (amended): chunk 0 of the two-chunk input fails feature
extraction in `whisperEnv`. -/
theorem C6_failed_chunk_contributes_empty_text_witness :
    TFLiteEngine.transcribeBuffer whisperEnv TFLiteEngine.fresh
      (TFLiteEngine.chunk whisperEnv twoChunkInput 0) = [] :=
  (C6_failed_chunk_contributes_empty_text whisperEnv TFLiteEngine.fresh twoChunkInput 0
    (by rw [twoChunkInput_chunks.2.1]; decide)
    (Or.inl (twoChunkInput_chunk0_fails TFLiteEngine.fresh.filters))).1

/-! ## C7: bad magic -/

/-- Claim C7. When the first four bytes of the selected blob, read as a
little-endian 32-bit integer, are not `0x57535052` (that is, are not the bytes
`52 50 53 57`), `loadModel` on an uninitialized instance returns the error
result `-1` and the state is the one before the call, flag, filter bank,
vocabulary and special ids included; so any load that follows behaves exactly
as it would have as a first load. -/
theorem C7_bad_magic_rejected (env : Env) (path : String) (ml : Bool) (s : TFLiteEngine)
    (b0 b1 b2 b3 : UInt8) (rest : List UInt8)
    (hs : s.is_whisper_tflite_initialized = false)
    (hblob : env.vocabData ml = b0 :: b1 :: b2 :: b3 :: rest)
    (hmagic : b0.toNat + 256 * b1.toNat + 65536 * b2.toNat + 16777216 * b3.toNat
      ≠ 0x57535052) :
    ¬ (b0 = 0x52 ∧ b1 = 0x50 ∧ b2 = 0x53 ∧ b3 = 0x57) ∧
    TFLiteEngine.loadModel env path ml s = some (-1, s) ∧
    ∀ (env' : Env) (path' : String) (ml' : Bool),
      (TFLiteEngine.loadModel env path ml s).bind
          (fun r => TFLiteEngine.loadModel env' path' ml' r.2) =
        TFLiteEngine.loadModel env' path' ml' s := by
  have hload : TFLiteEngine.loadModel env path ml s = some (-1, s) := by
    unfold TFLiteEngine.loadModel
    rw [hs, hblob]
    simp only [Bool.false_eq_true, if_false, readInt32]
    have hne : int32OfBytes b0 b1 b2 b3 ≠ 0x57535052 := by
      unfold int32OfBytes
      intro h
      by_cases hu : b0.toNat + 256 * b1.toNat + 65536 * b2.toNat + 16777216 * b3.toNat
          < 2147483648
      · simp only [hu, if_true] at h
        exact hmagic (by exact_mod_cast h)
      · simp only [hu, if_false] at h
        have l0 := b0.toNat_lt
        have l1 := b1.toNat_lt
        have l2 := b2.toNat_lt
        have l3 := b3.toNat_lt
        omega
    rw [if_pos hne]
  refine ⟨?_, hload, ?_⟩
  · rintro ⟨h0, h1, h2, h3⟩
    subst h0 h1 h2 h3
    exact hmagic (by decide)
  · intro env' path' ml'
    rw [hload]
    rfl

/-- Witness of C7: a blob that starts with the bytes `57 53 50 52`, the magic
value in the wrong byte order. -/
theorem C7_bad_magic_rejected_witness :
    TFLiteEngine.loadModel
        { whisperEnv with filters_vocab_en := [0x57, 0x53, 0x50, 0x52, 0, 0, 0, 0] }
        "whisper.tflite" false TFLiteEngine.fresh = some (-1, TFLiteEngine.fresh) :=
  (C7_bad_magic_rejected
    { whisperEnv with filters_vocab_en := [0x57, 0x53, 0x50, 0x52, 0, 0, 0, 0] }
    "whisper.tflite" false TFLiteEngine.fresh 0x57 0x53 0x50 0x52 [0, 0, 0, 0]
    rfl rfl (by decide)).2.1

/-! ## C8: binary layout round trip -/

/-- Claim C8. Loading the blob made of the little-endian magic `0x57535052`,
`n_mel`, `n_fft`, the `n_mel * n_fft` weights, `n_vocab` and then each string as
a 4-byte length followed by its raw bytes returns (with `0` when the model file
opens) and leaves a filter bank with those `n_mel`, `n_fft` and weights, in the
same order, and `id_to_token[i]` equal to the `i`-th string for every
`i < n_vocab`, whatever bytes the strings hold. The fields are 32-bit `int`s,
so the counts, the string lengths and the product `n_mel * n_fft` are below
`2^31`; the TFLite checks on the model file are taken to pass. -/
theorem C8_blob_round_trip (env : Env) (path : String) (ml : Bool) (s : TFLiteEngine)
    (n_mel n_fft : Nat) (weights : List Float32) (words : List ByteString)
    (hs : s.is_whisper_tflite_initialized = false)
    (hblob : env.vocabData ml = encodeBlob n_mel n_fft weights words)
    (hw : weights.length = n_mel * n_fft) (h1 : n_mel < 2147483648) (h2 : n_fft < 2147483648)
    (h3 : n_mel * n_fft < 2147483648) (h4 : words.length < 2147483648)
    (h5 : ∀ w ∈ words, w.length < 2147483648)
    (hok : ∀ buffer, env.openModel path = some buffer → env.tfliteOk buffer = true) :
    ∃ r s', TFLiteEngine.loadModel env path ml s = some (r, s') ∧
      (r = 0 ↔ (env.openModel path).isSome = true) ∧
      s'.filters.n_mel = n_mel ∧ s'.filters.n_fft = n_fft ∧ s'.filters.data = weights ∧
      (s'.filters.data.length : Int) = s'.filters.n_mel * s'.filters.n_fft ∧
      ∀ i (hi : i < words.length),
        s'.g_vocab.id_to_token.find (i : Int) = some (words.get ⟨i, hi⟩) := by
  obtain ⟨r, s', hload, hr, hf, hv⟩ :=
    loadModel_encode env path ml s n_mel n_fft weights words hs hblob hw h1 h2 h3 h4 h5 hok
  refine ⟨r, s', hload, hr, by rw [hf], by rw [hf], by rw [hf], ?_, hv⟩
  rw [hf]
  simp only
  rw [hw]
  push_cast
  rfl

/-- Witness of C8: a blob with a 1 x 2 filter bank and three strings, one with
a zero byte in it and one of length 0. -/
theorem C8_blob_round_trip_witness :
    ∃ r s', TFLiteEngine.loadModel
        { whisperEnv with filters_vocab_en := encodeBlob 1 2 [7, 9] [[97, 0, 98], [], [99]] }
        "whisper.tflite" false TFLiteEngine.fresh = some (r, s') ∧
      r = 0 ∧ s'.filters.data = [7, 9] ∧
      s'.g_vocab.id_to_token.find 0 = some [97, 0, 98] ∧
      s'.g_vocab.id_to_token.find 1 = some [] := by
  obtain ⟨r, s', hload, hr, _, _, hd, _, hv⟩ :=
    C8_blob_round_trip
      { whisperEnv with filters_vocab_en := encodeBlob 1 2 [7, 9] [[97, 0, 98], [], [99]] }
      "whisper.tflite" false TFLiteEngine.fresh 1 2 [7, 9] [[97, 0, 98], [], [99]]
      rfl rfl rfl (by decide) (by decide) (by decide) (by decide) (by decide)
      (fun _ _ => rfl)
  exact ⟨r, s', hload, hr.2 rfl, hd, hv 0 (by decide), hv 1 (by decide)⟩

/-! ## C9: tokens above `end_of_text` -/

/-- Claim C9. A token above `end_of_text` is never appended by the decode loop:
dropping all such tokens from a sequence leaves the decoded text unchanged, for
every vocabulary. In a vocabulary loaded on a fresh instance
`begin_timestamp + 7` is such a token, though it has the synthesised entry
`"[_TT_7]"` (the blob holding no explicit string for that id), and taking it
out of a sequence does not change the text. -/
theorem C9_tokens_above_eot_never_appended :
    (∀ (v : whisper_vocab) (xs : List Int),
      decodeTokens v (xs.filter (fun t => decide (¬ t > v.token_eot))) [] =
        decodeTokens v xs []) ∧
    (∀ (env : Env) (path : String) (ml : Bool) (s s' : TFLiteEngine) (n_vocab : Int),
      s.is_whisper_tflite_initialized = false → s.g_vocab = whisper_vocab.initial →
      TFLiteEngine.loadModel env path ml s = some (0, s') →
      n_vocab_of (env.vocabData ml) = some n_vocab →
      n_vocab ≤ s'.g_vocab.token_beg + 7 →
      s'.g_vocab.token_beg + 7 > s'.g_vocab.token_eot ∧
      s'.g_vocab.id_to_token.find (s'.g_vocab.token_beg + 7) = some (cstr "[_TT_7]") ∧
      ∀ xs ys : List Int,
        decodeTokens s'.g_vocab (xs ++ [s'.g_vocab.token_beg + 7] ++ ys) [] =
          decodeTokens s'.g_vocab (xs ++ ys) []) := by
  refine ⟨fun v xs => decodeTokens_filter v xs [], ?_⟩
  intro env path ml s s' n_vocab hs hv h hn hle
  obtain ⟨n, m, hn', hg⟩ := loaded_vocab hs h
  rw [hn] at hn'
  have hn'' : n = n_vocab := by simpa using hn'.symm
  subst hn''
  rw [hv] at hg
  have e1 : s'.g_vocab.token_eot = 50256 + (if ml then 1 else 0) := by
    rw [hg]; cases ml <;> rfl
  have e6 : s'.g_vocab.token_beg = 50363 + (if ml then 1 else 0) := by
    rw [hg]; cases ml <;> rfl
  have hgt : s'.g_vocab.token_beg + 7 > s'.g_vocab.token_eot := by
    rw [e1, e6]; split <;> omega
  refine ⟨hgt, ?_, ?_⟩
  · have hword : additionalWord (if ml then bumpSpecial whisper_vocab.initial
        else whisper_vocab.initial) (s'.g_vocab.token_beg + 7) = cstr "[_TT_7]" := by
      rw [e6]
      cases ml <;> decide
    have hid : s'.g_vocab.id_to_token =
        addAdditional (if ml then bumpSpecial whisper_vocab.initial else whisper_vocab.initial)
          (n_vocab_additional ml - n).toNat n m := by
      rw [hg]
    rw [hid, addAdditional_find, if_pos, hword]
    refine ⟨hle, ?_⟩
    rw [e6]
    unfold n_vocab_additional
    rw [e6] at hle
    cases ml <;> simp at hle ⊢ <;> omega
  · intro xs ys
    rw [← decodeTokens_filter _ (xs ++ [s'.g_vocab.token_beg + 7] ++ ys),
      ← decodeTokens_filter _ (xs ++ ys)]
    congr 1
    simp only [List.filter_append, List.append_assoc]
    rw [List.filter_cons_of_neg (by simpa using hgt)]
    simp

/-- Witness of C9: the English-only load of the small blob, whose single
explicit token leaves `begin_timestamp + 7 = 50370` to the synthesis loop. -/
theorem C9_tokens_above_eot_never_appended_witness :
    ∃ s', TFLiteEngine.loadModel whisperEnv "whisper.tflite" false TFLiteEngine.fresh =
        some (0, s') ∧
      s'.g_vocab.token_beg + 7 > s'.g_vocab.token_eot ∧
      s'.g_vocab.id_to_token.find (s'.g_vocab.token_beg + 7) = some (cstr "[_TT_7]") ∧
      decodeTokens s'.g_vocab ([0] ++ [s'.g_vocab.token_beg + 7] ++ [0]) [] =
        decodeTokens s'.g_vocab ([0] ++ [0]) [] := by
  obtain ⟨s', h, _⟩ := whisperEnv_load false
  have hbeg : s'.g_vocab.token_beg = 50363 := by
    obtain ⟨n, m, _, hg⟩ := loaded_vocab rfl h
    rw [hg]
    rfl
  obtain ⟨h1, h2, h3⟩ := C9_tokens_above_eot_never_appended.2 whisperEnv "whisper.tflite" false
    TFLiteEngine.fresh s' 1 rfl rfl h (whisperEnv_n_vocab false) (by rw [hbeg]; decide)
  exact ⟨s', h, h1, h2, h3 [0] [0]⟩

/-! ## C10: repeated load -/

/-- Claim C10. On an initialized instance `loadModel` returns `0` and leaves
the whole state as it was, for every model path and every `is_multilingual`,
whatever the blobs and the file system are. -/
theorem C10_load_idempotent (env : Env) (path : String) (ml : Bool) (s : TFLiteEngine)
    (hs : s.is_whisper_tflite_initialized = true) :
    TFLiteEngine.loadModel env path ml s = some (0, s) := by
  unfold TFLiteEngine.loadModel
  rw [if_pos hs]

/-- Witness of C10: a second load with a path that does not exist and the other
language flag, after a first load that succeeded. -/
theorem C10_load_idempotent_witness :
    ∃ s1, TFLiteEngine.loadModel whisperEnv "whisper.tflite" false TFLiteEngine.fresh =
        some (0, s1) ∧
      TFLiteEngine.loadModel whisperEnv "missing.tflite" true s1 = some (0, s1) := by
  obtain ⟨s1, h1, _⟩ := whisperEnv_loadFiltersVocab false TFLiteEngine.fresh
  refine ⟨{ s1 with buffer := some [], is_whisper_tflite_initialized := true }, ?_, ?_⟩
  · rw [loadModel_of_parts whisperEnv "whisper.tflite" false rfl tinyBlob_magic h1]
    rfl
  · exact C10_load_idempotent whisperEnv "missing.tflite" true _ rfl

/-! ## C11: every id has one entry -/

/-- Claim C11. After a successful `loadModel` from a fresh instance, whatever
`n_vocab` the blob holds and whichever the flag, every id in `[0, ceiling)`
(51864 English-only, 51865 multilingual) is found in `id_to_token` and has
exactly one entry there; and a second run of the load from a fresh state on the
same blob and flag ends with the same `id_to_token` and the same special ids. -/
theorem C11_every_id_has_one_entry (env : Env) (path : String) (ml : Bool)
    (s s' : TFLiteEngine)
    (hs : s.is_whisper_tflite_initialized = false) (hv : s.g_vocab = whisper_vocab.initial)
    (h : TFLiteEngine.loadModel env path ml s = some (0, s')) :
    (∀ i : Int, 0 ≤ i → i < (if ml then 51865 else 51864) →
      (∃ w, s'.g_vocab.id_to_token.find i = some w) ∧
      (s'.g_vocab.id_to_token.filter (fun e => decide (e.1 = i))).length = 1) ∧
    (∀ (env2 : Env) (path2 : String) (t t' : TFLiteEngine),
      t.is_whisper_tflite_initialized = false → t.g_vocab = whisper_vocab.initial →
      env2.vocabData ml = env.vocabData ml →
      TFLiteEngine.loadModel env2 path2 ml t = some (0, t') →
      t'.g_vocab.id_to_token = s'.g_vocab.id_to_token ∧
      t'.g_vocab.token_eot = s'.g_vocab.token_eot ∧
      t'.g_vocab.token_sot = s'.g_vocab.token_sot ∧
      t'.g_vocab.token_prev = s'.g_vocab.token_prev ∧
      t'.g_vocab.token_solm = s'.g_vocab.token_solm ∧
      t'.g_vocab.token_not = s'.g_vocab.token_not ∧
      t'.g_vocab.token_beg = s'.g_vocab.token_beg) := by
  obtain ⟨p, s1, buffer, hm, h1, _, _, hs'⟩ := loadModel_ok hs h
  have hnil : s.g_vocab.id_to_token.Pairwise (fun a b => a.1 < b.1) := by
    rw [hv]
    exact List.Pairwise.nil
  obtain ⟨hpw, hcov⟩ := loadFiltersVocab_covers h1 hnil
  have hs'v : s'.g_vocab = s1.g_vocab := by rw [hs']
  refine ⟨?_, ?_⟩
  · intro i h0 hhi
    have hlt : i < n_vocab_additional ml := by
      unfold n_vocab_additional
      exact hhi
    obtain ⟨w, hw⟩ := hcov i h0 hlt
    rw [hs'v]
    exact ⟨⟨w, hw⟩, count_of_pairwise _ i w hpw hw⟩
  · intro env2 path2 t t' ht htv hblob h2
    obtain ⟨q, t1, buffer2, hm2, h12, _, _, ht'⟩ := loadModel_ok ht h2
    have ht'v : t'.g_vocab = t1.g_vocab := by rw [ht']
    rw [hblob, hm] at hm2
    simp only [Option.some.injEq, Prod.mk.injEq, true_and] at hm2
    subst hm2
    have hg : t1.g_vocab = s1.g_vocab :=
      (loadFiltersVocab_congr (by rw [htv, hv]) h12 h1).1
    rw [ht'v, hs'v, hg]
    exact ⟨rfl, rfl, rfl, rfl, rfl, rfl, rfl⟩

/-- Witness of C11: an English-only load of the small blob in `whisperEnv`, and
a second one from a fresh state with another model file. -/
theorem C11_every_id_has_one_entry_witness :
    ∃ s' t', TFLiteEngine.loadModel whisperEnv "whisper.tflite" false TFLiteEngine.fresh =
        some (0, s') ∧
      TFLiteEngine.loadModel { whisperEnv with openModel := fun _ => some [1] } "other.tflite"
        false TFLiteEngine.fresh = some (0, t') ∧
      (∃ w, s'.g_vocab.id_to_token.find 0 = some w) ∧
      (s'.g_vocab.id_to_token.filter (fun e => decide (e.1 = 51863))).length = 1 ∧
      t'.g_vocab.id_to_token = s'.g_vocab.id_to_token := by
  obtain ⟨s', h, _⟩ := whisperEnv_load false
  obtain ⟨r, t', h2, hr, _⟩ := loadModel_encode
    { whisperEnv with openModel := fun _ => some [1] } "other.tflite" false TFLiteEngine.fresh
    0 0 [] [cstr " hello"] rfl rfl rfl (by decide) (by decide) (by decide) (by decide)
    (by decide) (fun _ _ => rfl)
  have hr0 : r = 0 := hr.2 rfl
  subst hr0
  have hall := C11_every_id_has_one_entry whisperEnv "whisper.tflite" false
    TFLiteEngine.fresh s' rfl rfl h
  exact ⟨s', t', h, h2, (hall.1 0 (by decide) (by decide)).1,
    (hall.1 51863 (by decide) (by decide)).2,
    (hall.2 { whisperEnv with openModel := fun _ => some [1] } "other.tflite"
      TFLiteEngine.fresh t' rfl rfl rfl h2).1⟩

/-! ## C12: the transcript is the concatenation of the chunk texts -/

/-- Claim C12. With `f` the transcription of one padded chunk (`transcribeBuffer`:
feature extraction, inference, decode), `transcribeFile` returns
`f(chunk_0) ++ f(chunk_1) ++ ... ++ f(chunk_{n-1})`, in increasing chunk order
and with nothing put between or taken from the chunk texts; for two chunks that
is `f(chunk_0) ++ f(chunk_1)`. -/
theorem C12_transcript_is_concatenation (env : Env) (s : TFLiteEngine)
    (pcmf32 : List Float32) :
    TFLiteEngine.transcribeFile env s pcmf32 =
      ((List.range (TFLiteEngine.totalChunks env pcmf32.length)).map
        (fun i => TFLiteEngine.transcribeBuffer env s
          (TFLiteEngine.chunk env pcmf32 i))).flatten ∧
    (TFLiteEngine.totalChunks env pcmf32.length = 2 →
      TFLiteEngine.transcribeFile env s pcmf32 =
        TFLiteEngine.transcribeBuffer env s (TFLiteEngine.chunk env pcmf32 0) ++
          TFLiteEngine.transcribeBuffer env s (TFLiteEngine.chunk env pcmf32 1)) := by
  have hmain : TFLiteEngine.transcribeFile env s pcmf32 =
      ((List.range (TFLiteEngine.totalChunks env pcmf32.length)).map
        (fun i => TFLiteEngine.transcribeBuffer env s
          (TFLiteEngine.chunk env pcmf32 i))).flatten := by
    unfold TFLiteEngine.transcribeFile
    rw [transcribeLoop_eq, List.nil_append, List.range_eq_range']
  refine ⟨hmain, ?_⟩
  intro h2
  rw [hmain, h2]
  simp [List.range_succ]

/-- Witness of C12: the input of 30 seconds and one sample, which makes two
chunks. -/
theorem C12_transcript_is_concatenation_witness :
    TFLiteEngine.transcribeFile whisperEnv TFLiteEngine.fresh twoChunkInput =
      TFLiteEngine.transcribeBuffer whisperEnv TFLiteEngine.fresh
          (TFLiteEngine.chunk whisperEnv twoChunkInput 0) ++
        TFLiteEngine.transcribeBuffer whisperEnv TFLiteEngine.fresh
          (TFLiteEngine.chunk whisperEnv twoChunkInput 1) :=
  (C12_transcript_is_concatenation whisperEnv TFLiteEngine.fresh twoChunkInput).2
    twoChunkInput_chunks.2.1

/-! ## C13: `transcribeBuffer` works on exactly `L` samples -/

/-- Claim C13. For every input, `transcribeBuffer` hands feature extraction the
input resized to exactly `L = WHISPER_SAMPLE_RATE * WHISPER_CHUNK_SIZE` samples:
a shorter input is padded on the right with zeros, an input of length `L` is
unchanged, a longer input is cut to its first `L` samples without any error;
so the samples at index `L` and beyond do not influence the result. -/
theorem C13_input_normalised_to_chunk_length (env : Env) (s : TFLiteEngine)
    (samples : List Float32) :
    TFLiteEngine.transcribeBuffer env s samples =
      (match env.log_mel_spectrogram
          (resize samples (env.WHISPER_SAMPLE_RATE * env.WHISPER_CHUNK_SIZE) 0) s.filters with
        | none => []
        | some mel =>
          match env.Invoke mel with
          | none => []
          | some output_int => decodeTokens s.g_vocab output_int []) ∧
    (resize samples (env.WHISPER_SAMPLE_RATE * env.WHISPER_CHUNK_SIZE) 0).length =
      env.WHISPER_SAMPLE_RATE * env.WHISPER_CHUNK_SIZE ∧
    (samples.length < env.WHISPER_SAMPLE_RATE * env.WHISPER_CHUNK_SIZE →
      resize samples (env.WHISPER_SAMPLE_RATE * env.WHISPER_CHUNK_SIZE) 0 =
        samples ++ List.replicate
          (env.WHISPER_SAMPLE_RATE * env.WHISPER_CHUNK_SIZE - samples.length) 0) ∧
    (samples.length = env.WHISPER_SAMPLE_RATE * env.WHISPER_CHUNK_SIZE →
      resize samples (env.WHISPER_SAMPLE_RATE * env.WHISPER_CHUNK_SIZE) 0 = samples) ∧
    (env.WHISPER_SAMPLE_RATE * env.WHISPER_CHUNK_SIZE < samples.length →
      resize samples (env.WHISPER_SAMPLE_RATE * env.WHISPER_CHUNK_SIZE) 0 =
        samples.take (env.WHISPER_SAMPLE_RATE * env.WHISPER_CHUNK_SIZE) ∧
      TFLiteEngine.transcribeBuffer env s samples =
        TFLiteEngine.transcribeBuffer env s
          (samples.take (env.WHISPER_SAMPLE_RATE * env.WHISPER_CHUNK_SIZE))) ∧
    (env.WHISPER_SAMPLE_RATE * env.WHISPER_CHUNK_SIZE ≤ samples.length →
      ∀ extra : List Float32,
        TFLiteEngine.transcribeBuffer env s
            (samples.take (env.WHISPER_SAMPLE_RATE * env.WHISPER_CHUNK_SIZE) ++ extra) =
          TFLiteEngine.transcribeBuffer env s samples) := by
  generalize hLdef : env.WHISPER_SAMPLE_RATE * env.WHISPER_CHUNK_SIZE = L
  have hcut : L ≤ samples.length → resize samples L 0 = samples.take L := by
    intro h
    unfold resize
    have e : L - samples.length = 0 := by omega
    rw [e, List.replicate_zero, List.append_nil]
  have hext : L ≤ samples.length → ∀ extra : List Float32,
      TFLiteEngine.transcribeBuffer env s (samples.take L ++ extra) =
        TFLiteEngine.transcribeBuffer env s samples := by
    intro h extra
    rw [transcribeBuffer_resize env s (samples.take L ++ extra),
      transcribeBuffer_resize env s samples, hLdef, resize_take_append samples extra L 0 h]
  refine ⟨?_, resize_length _ _ _, ?_, ?_, ?_, hext⟩
  · unfold TFLiteEngine.transcribeBuffer
    rw [hLdef]
  · intro h
    unfold resize
    rw [List.take_of_length_le (by omega)]
  · intro h
    exact resize_of_length _ _ _ h
  · intro h
    refine ⟨hcut (by omega), ?_⟩
    have := hext (by omega) []
    rw [List.append_nil] at this
    exact this.symm

/-- Witness of C13: a three-sample input (padded) and the input of 30 seconds
and one sample (cut). -/
theorem C13_input_normalised_to_chunk_length_witness :
    resize ([1, 2, 3] : List Float32)
        (whisperEnv.WHISPER_SAMPLE_RATE * whisperEnv.WHISPER_CHUNK_SIZE) 0 =
      [1, 2, 3] ++ List.replicate
        (whisperEnv.WHISPER_SAMPLE_RATE * whisperEnv.WHISPER_CHUNK_SIZE -
          ([1, 2, 3] : List Float32).length) 0 ∧
    TFLiteEngine.transcribeBuffer whisperEnv TFLiteEngine.fresh twoChunkInput =
      TFLiteEngine.transcribeBuffer whisperEnv TFLiteEngine.fresh
        (twoChunkInput.take (whisperEnv.WHISPER_SAMPLE_RATE * whisperEnv.WHISPER_CHUNK_SIZE)) := by
  have hlong : whisperEnv.WHISPER_SAMPLE_RATE * whisperEnv.WHISPER_CHUNK_SIZE
      < twoChunkInput.length := by
    unfold twoChunkInput
    rw [List.length_append, List.length_replicate]
    decide
  exact ⟨(C13_input_normalised_to_chunk_length whisperEnv TFLiteEngine.fresh
      [1, 2, 3]).2.2.1 (by decide),
    ((C13_input_normalised_to_chunk_length whisperEnv TFLiteEngine.fresh
      twoChunkInput).2.2.2.2.1 hlong).2⟩
